import Mathlib

/-!
Verification of the J-PAKE library (secp256k1, RFC 8236 / RFC 8235).

The development shallowly embeds the TypeScript sources:

* `src/constants.mts`  — the group order `n` and base point `G`;
* `src/schnorr.mts`    — Schnorr ZKP challenge, generation, verification;
* `src/JPake.mts`      — the J-PAKE session state machine;
* `deriveSFromPassword` — the password-to-scalar map.

Modelling conventions (the underlying curve library `@noble/curves` is an
external collaborator, out of scope per the specification, and is modelled
by the mathematical group it implements):

* The secp256k1 group generated by `G` is cyclic of prime order `n`
  (cofactor 1), hence isomorphic to `ZMod n`.  A point is represented by
  its discrete logarithm with respect to `G`, a natural number in
  `[0, n)`; the point at infinity is `0` and `G` itself is `1`.
  Point addition, subtraction and scalar multiplication are the total
  mathematical operations (`padd`, `psub`, `pmul`).
* Byte strings are `List ℕ` (each entry a byte).  The 33-byte compressed
  SEC1 encoding of a point is modelled by an injective encoding of the
  representative; decoding accepts exactly the encodings of points other
  than the point at infinity, which compressed SEC1 cannot represent.
* SHA3-256 is an external primitive; every definition is parametrised by
  an arbitrary function `hash : List ℕ → List ℕ`.
* Randomness (`secp256k1.utils.randomPrivateKey`, which returns 32 bytes
  whose big-endian value lies in `[1, n)`) is passed in as an explicit
  scalar argument.
* Strings (user ids, otherInfo entries) are modelled by their UTF-8 byte
  lists; UTF-8 encoding is injective, so string equality coincides with
  byte-list equality.

The file first proves `n` prime via Lucas (Pratt) certificates, since the
honest-run arguments need `ZMod n` to be a field.
-/

set_option maxRecDepth 40000

namespace JPakeSpec

/-- The order of the secp256k1 base point (`src/constants.mts`). -/
def n : ℕ := 115792089237316195423570985008687907852837564279074904382605163141518161494337

/-- Fast modular exponentiation with explicit fuel (kernel-reducible), used
to check Lucas primality certificates. -/
def powMod : ℕ → ℕ → ℕ → ℕ → ℕ
  | 0, _, _, m => 1 % m
  | fuel + 1, a, e, m =>
    if e = 0 then 1 % m
    else
      let h := powMod fuel (a * a % m) (e / 2) m
      if e % 2 = 1 then h * (a % m) % m else h

theorem powMod_correct (fuel : ℕ) : ∀ e, e < 2 ^ fuel → ∀ a m, 0 < m →
    powMod fuel a e m = a ^ e % m := by
  induction fuel with
  | zero =>
    intro e he a m _
    have h0 : e = 0 := by simpa using he
    subst h0
    simp [powMod]
  | succ f ih =>
    intro e he a m hm
    by_cases h0 : e = 0
    · subst h0
      simp [powMod]
    · have hlt : e / 2 < 2 ^ f := by
        have h2 : (2:ℕ) ^ (f + 1) = 2 * 2 ^ f := by rw [pow_succ]; ring
        omega
      have hh := ih (e / 2) hlt (a * a % m) m hm
      have hsq : (a * a % m) ^ (e / 2) % m = a ^ (2 * (e / 2)) % m := by
        calc (a * a % m) ^ (e / 2) % m
            = (a * a) ^ (e / 2) % m := (Nat.pow_mod _ _ _).symm
          _ = a ^ (2 * (e / 2)) % m := by rw [← pow_two, ← pow_mul]
      simp only [powMod, if_neg h0]
      by_cases hodd : e % 2 = 1
      · simp only [if_pos hodd]
        rw [hh, hsq, ← Nat.mul_mod, ← pow_succ, show 2 * (e / 2) + 1 = e by omega]
      · simp only [if_neg hodd]
        rw [hh, hsq, show 2 * (e / 2) = e by omega]

theorem powMod_lt (fuel : ℕ) : ∀ a e m, 0 < m → powMod fuel a e m < m := by
  induction fuel with
  | zero => intro a e m hm; simpa [powMod] using Nat.mod_lt _ hm
  | succ f ih =>
    intro a e m hm
    by_cases h0 : e = 0
    · subst h0; simpa [powMod] using Nat.mod_lt _ hm
    · simp only [powMod, if_neg h0]
      by_cases hodd : e % 2 = 1
      · simpa [if_pos hodd] using Nat.mod_lt _ hm
      · simpa [if_neg hodd] using ih (a * a % m) (e / 2) m hm

theorem zmod_pow_powMod (a e m : ℕ) (hm : 0 < m) (he : e < 2 ^ 256) :
    ((a : ℕ) : ZMod m) ^ e = ((powMod 256 a e m : ℕ) : ZMod m) := by
  rw [powMod_correct 256 e he a m hm, ZMod.natCast_mod, Nat.cast_pow]

theorem zmod_cast_ne_one (p v : ℕ) (h1 : 1 < p) (hv : v < p) (hne : v ≠ 1) :
    ((v : ℕ) : ZMod p) ≠ 1 := by
  haveI : NeZero p := ⟨by omega⟩
  haveI : Fact (1 < p) := ⟨h1⟩
  intro h
  have hval := congrArg ZMod.val h
  rw [ZMod.val_cast_of_lt hv, ZMod.val_one] at hval
  exact hne hval

theorem lucas_pow_one (p a e : ℕ) (h1 : 0 < p) (he : e < 2 ^ 256)
    (h : powMod 256 a e p = 1) : ((a : ℕ) : ZMod p) ^ e = 1 := by
  rw [zmod_pow_powMod a e p h1 he, h, Nat.cast_one]

theorem lucas_branch (p a e : ℕ) (h1 : 1 < p) (he : e < 2 ^ 256)
    (hne : powMod 256 a e p ≠ 1) : ((a : ℕ) : ZMod p) ^ e ≠ 1 := by
  rw [zmod_pow_powMod a e p (by omega) he]
  exact zmod_cast_ne_one p _ h1 (powMod_lt 256 a e p (by omega)) hne

theorem prime_eq_of_dvd {q p : ℕ} (hq : Nat.Prime q) (hp : Nat.Prime p)
    (h : q ∣ p) : q = p := (Nat.prime_dvd_prime_iff_eq hq hp).mp h

theorem prime_eq_of_dvd_pow {q p k : ℕ} (hq : Nat.Prime q) (hp : Nat.Prime p)
    (h : q ∣ p ^ k) : q = p := prime_eq_of_dvd hq hp (hq.dvd_of_dvd_pow h)

theorem prime_1627771 : Nat.Prime 1627771 := by
  apply lucas_primality 1627771 ((3 : ℕ) : ZMod 1627771)
  · exact lucas_pow_one _ 3 _ (by norm_num) (by norm_num) (by decide)
  · intro q hq hdvd
    have hfac : (1627771 : ℕ) - 1 = 2 * (3 * (5 * (29 * 1871))) := by norm_num
    rw [hfac] at hdvd
    rcases (Nat.Prime.dvd_mul hq).mp hdvd with h | h
    · rw [prime_eq_of_dvd hq (by norm_num) h]
      exact lucas_branch _ 3 _ (by norm_num) (by norm_num) (by decide)
    rcases (Nat.Prime.dvd_mul hq).mp h with h | h
    · rw [prime_eq_of_dvd hq (by norm_num) h]
      exact lucas_branch _ 3 _ (by norm_num) (by norm_num) (by decide)
    rcases (Nat.Prime.dvd_mul hq).mp h with h | h
    · rw [prime_eq_of_dvd hq (by norm_num) h]
      exact lucas_branch _ 3 _ (by norm_num) (by norm_num) (by decide)
    rcases (Nat.Prime.dvd_mul hq).mp h with h | h
    · rw [prime_eq_of_dvd hq (by norm_num) h]
      exact lucas_branch _ 3 _ (by norm_num) (by norm_num) (by decide)
    · rw [prime_eq_of_dvd hq (by norm_num) h]
      exact lucas_branch _ 3 _ (by norm_num) (by norm_num) (by decide)

theorem prime_4681609 : Nat.Prime 4681609 := by
  apply lucas_primality 4681609 ((23 : ℕ) : ZMod 4681609)
  · exact lucas_pow_one _ 23 _ (by decide) (by decide) (by decide)
  · intro q hq hdvd
    have hfac : (4681609 : ℕ) - 1 = 2 ^ 3 * (3 * (97 * (2011))) := by decide
    rw [hfac] at hdvd
    rcases (Nat.Prime.dvd_mul hq).mp hdvd with h | h
    · rw [prime_eq_of_dvd_pow hq (by norm_num) h]
      exact lucas_branch _ 23 _ (by decide) (by decide) (by decide)
    rcases (Nat.Prime.dvd_mul hq).mp h with h | h
    · rw [prime_eq_of_dvd hq (by norm_num) h]
      exact lucas_branch _ 23 _ (by decide) (by decide) (by decide)
    rcases (Nat.Prime.dvd_mul hq).mp h with h | h
    · rw [prime_eq_of_dvd hq (by norm_num) h]
      exact lucas_branch _ 23 _ (by decide) (by decide) (by decide)
    · rw [prime_eq_of_dvd hq (by norm_num) h]
      exact lucas_branch _ 23 _ (by decide) (by decide) (by decide)

theorem prime_44706919 : Nat.Prime 44706919 := by
  apply lucas_primality 44706919 ((6 : ℕ) : ZMod 44706919)
  · exact lucas_pow_one _ 6 _ (by decide) (by decide) (by decide)
  · intro q hq hdvd
    have hfac : (44706919 : ℕ) - 1 = 2 * (3 * (797 * (9349))) := by decide
    rw [hfac] at hdvd
    rcases (Nat.Prime.dvd_mul hq).mp hdvd with h | h
    · rw [prime_eq_of_dvd hq (by norm_num) h]
      exact lucas_branch _ 6 _ (by decide) (by decide) (by decide)
    rcases (Nat.Prime.dvd_mul hq).mp h with h | h
    · rw [prime_eq_of_dvd hq (by norm_num) h]
      exact lucas_branch _ 6 _ (by decide) (by decide) (by decide)
    rcases (Nat.Prime.dvd_mul hq).mp h with h | h
    · rw [prime_eq_of_dvd hq (by norm_num) h]
      exact lucas_branch _ 6 _ (by decide) (by decide) (by decide)
    · rw [prime_eq_of_dvd hq (by norm_num) h]
      exact lucas_branch _ 6 _ (by decide) (by decide) (by decide)

theorem prime_545358713 : Nat.Prime 545358713 := by
  apply lucas_primality 545358713 ((5 : ℕ) : ZMod 545358713)
  · exact lucas_pow_one _ 5 _ (by decide) (by decide) (by decide)
  · intro q hq hdvd
    have hfac : (545358713 : ℕ) - 1 = 2 ^ 3 * (41 * (59 * (28181))) := by decide
    rw [hfac] at hdvd
    rcases (Nat.Prime.dvd_mul hq).mp hdvd with h | h
    · rw [prime_eq_of_dvd_pow hq (by norm_num) h]
      exact lucas_branch _ 5 _ (by decide) (by decide) (by decide)
    rcases (Nat.Prime.dvd_mul hq).mp h with h | h
    · rw [prime_eq_of_dvd hq (by norm_num) h]
      exact lucas_branch _ 5 _ (by decide) (by decide) (by decide)
    rcases (Nat.Prime.dvd_mul hq).mp h with h | h
    · rw [prime_eq_of_dvd hq (by norm_num) h]
      exact lucas_branch _ 5 _ (by decide) (by decide) (by decide)
    · rw [prime_eq_of_dvd hq (by norm_num) h]
      exact lucas_branch _ 5 _ (by decide) (by decide) (by decide)

theorem prime_297159362677 : Nat.Prime 297159362677 := by
  apply lucas_primality 297159362677 ((2 : ℕ) : ZMod 297159362677)
  · exact lucas_pow_one _ 2 _ (by decide) (by decide) (by decide)
  · intro q hq hdvd
    have hfac : (297159362677 : ℕ) - 1 = 2 ^ 2 * (3 ^ 2 * (11 * (461 * (1627771)))) := by decide
    rw [hfac] at hdvd
    rcases (Nat.Prime.dvd_mul hq).mp hdvd with h | h
    · rw [prime_eq_of_dvd_pow hq (by norm_num) h]
      exact lucas_branch _ 2 _ (by decide) (by decide) (by decide)
    rcases (Nat.Prime.dvd_mul hq).mp h with h | h
    · rw [prime_eq_of_dvd_pow hq (by norm_num) h]
      exact lucas_branch _ 2 _ (by decide) (by decide) (by decide)
    rcases (Nat.Prime.dvd_mul hq).mp h with h | h
    · rw [prime_eq_of_dvd hq (by norm_num) h]
      exact lucas_branch _ 2 _ (by decide) (by decide) (by decide)
    rcases (Nat.Prime.dvd_mul hq).mp h with h | h
    · rw [prime_eq_of_dvd hq (by norm_num) h]
      exact lucas_branch _ 2 _ (by decide) (by decide) (by decide)
    · rw [prime_eq_of_dvd hq prime_1627771 h]
      exact lucas_branch _ 2 _ (by decide) (by decide) (by decide)

theorem prime_107361793816595537 : Nat.Prime 107361793816595537 := by
  apply lucas_primality 107361793816595537 ((3 : ℕ) : ZMod 107361793816595537)
  · exact lucas_pow_one _ 3 _ (by decide) (by decide) (by decide)
  · intro q hq hdvd
    have hfac : (107361793816595537 : ℕ) - 1 = 2 ^ 4 * (16699 * (85831 * (4681609))) := by decide
    rw [hfac] at hdvd
    rcases (Nat.Prime.dvd_mul hq).mp hdvd with h | h
    · rw [prime_eq_of_dvd_pow hq (by norm_num) h]
      exact lucas_branch _ 3 _ (by decide) (by decide) (by decide)
    rcases (Nat.Prime.dvd_mul hq).mp h with h | h
    · rw [prime_eq_of_dvd hq (by norm_num) h]
      exact lucas_branch _ 3 _ (by decide) (by decide) (by decide)
    rcases (Nat.Prime.dvd_mul hq).mp h with h | h
    · rw [prime_eq_of_dvd hq (by norm_num) h]
      exact lucas_branch _ 3 _ (by decide) (by decide) (by decide)
    · rw [prime_eq_of_dvd hq prime_4681609 h]
      exact lucas_branch _ 3 _ (by decide) (by decide) (by decide)

theorem prime_174723607534414371449 : Nat.Prime 174723607534414371449 := by
  apply lucas_primality 174723607534414371449 ((3 : ℕ) : ZMod 174723607534414371449)
  · exact lucas_pow_one _ 3 _ (by decide) (by decide) (by decide)
  · intro q hq hdvd
    have hfac : (174723607534414371449 : ℕ) - 1 = 2 ^ 3 * (17 * (59 * (4051 * (120233 * (44706919))))) := by decide
    rw [hfac] at hdvd
    rcases (Nat.Prime.dvd_mul hq).mp hdvd with h | h
    · rw [prime_eq_of_dvd_pow hq (by norm_num) h]
      exact lucas_branch _ 3 _ (by decide) (by decide) (by decide)
    rcases (Nat.Prime.dvd_mul hq).mp h with h | h
    · rw [prime_eq_of_dvd hq (by norm_num) h]
      exact lucas_branch _ 3 _ (by decide) (by decide) (by decide)
    rcases (Nat.Prime.dvd_mul hq).mp h with h | h
    · rw [prime_eq_of_dvd hq (by norm_num) h]
      exact lucas_branch _ 3 _ (by decide) (by decide) (by decide)
    rcases (Nat.Prime.dvd_mul hq).mp h with h | h
    · rw [prime_eq_of_dvd hq (by norm_num) h]
      exact lucas_branch _ 3 _ (by decide) (by decide) (by decide)
    rcases (Nat.Prime.dvd_mul hq).mp h with h | h
    · rw [prime_eq_of_dvd hq (by norm_num) h]
      exact lucas_branch _ 3 _ (by decide) (by decide) (by decide)
    · rw [prime_eq_of_dvd hq prime_44706919 h]
      exact lucas_branch _ 3 _ (by decide) (by decide) (by decide)

theorem prime_29047611873442575647497758179 : Nat.Prime 29047611873442575647497758179 := by
  apply lucas_primality 29047611873442575647497758179 ((2 : ℕ) : ZMod 29047611873442575647497758179)
  · exact lucas_pow_one _ 2 _ (by decide) (by decide) (by decide)
  · intro q hq hdvd
    have hfac : (29047611873442575647497758179 : ℕ) - 1 = 2 * (293 * (305873 * (545358713 * (297159362677)))) := by decide
    rw [hfac] at hdvd
    rcases (Nat.Prime.dvd_mul hq).mp hdvd with h | h
    · rw [prime_eq_of_dvd hq (by norm_num) h]
      exact lucas_branch _ 2 _ (by decide) (by decide) (by decide)
    rcases (Nat.Prime.dvd_mul hq).mp h with h | h
    · rw [prime_eq_of_dvd hq (by norm_num) h]
      exact lucas_branch _ 2 _ (by decide) (by decide) (by decide)
    rcases (Nat.Prime.dvd_mul hq).mp h with h | h
    · rw [prime_eq_of_dvd hq (by norm_num) h]
      exact lucas_branch _ 2 _ (by decide) (by decide) (by decide)
    rcases (Nat.Prime.dvd_mul hq).mp h with h | h
    · rw [prime_eq_of_dvd hq prime_545358713 h]
      exact lucas_branch _ 2 _ (by decide) (by decide) (by decide)
    · rw [prime_eq_of_dvd hq prime_297159362677 h]
      exact lucas_branch _ 2 _ (by decide) (by decide) (by decide)

theorem prime_341948486974166000522343609283189 : Nat.Prime 341948486974166000522343609283189 := by
  apply lucas_primality 341948486974166000522343609283189 ((2 : ℕ) : ZMod 341948486974166000522343609283189)
  · exact lucas_pow_one _ 2 _ (by decide) (by decide) (by decide)
  · intro q hq hdvd
    have hfac : (341948486974166000522343609283189 : ℕ) - 1 = 2 ^ 2 * (3 ^ 3 * (109 * (29047611873442575647497758179))) := by decide
    rw [hfac] at hdvd
    rcases (Nat.Prime.dvd_mul hq).mp hdvd with h | h
    · rw [prime_eq_of_dvd_pow hq (by norm_num) h]
      exact lucas_branch _ 2 _ (by decide) (by decide) (by decide)
    rcases (Nat.Prime.dvd_mul hq).mp h with h | h
    · rw [prime_eq_of_dvd_pow hq (by norm_num) h]
      exact lucas_branch _ 2 _ (by decide) (by decide) (by decide)
    rcases (Nat.Prime.dvd_mul hq).mp h with h | h
    · rw [prime_eq_of_dvd hq (by norm_num) h]
      exact lucas_branch _ 2 _ (by decide) (by decide) (by decide)
    · rw [prime_eq_of_dvd hq prime_29047611873442575647497758179 h]
      exact lucas_branch _ 2 _ (by decide) (by decide) (by decide)

theorem n_prime : Nat.Prime n := by
  apply lucas_primality n ((7 : ℕ) : ZMod n)
  · exact lucas_pow_one _ 7 _ (by decide) (by decide) (by decide)
  · intro q hq hdvd
    have hfac : (n : ℕ) - 1 = 2 ^ 6 * (3 * (149 * (631 * (107361793816595537 * (174723607534414371449 * (341948486974166000522343609283189)))))) := by decide
    rw [hfac] at hdvd
    rcases (Nat.Prime.dvd_mul hq).mp hdvd with h | h
    · rw [prime_eq_of_dvd_pow hq (by norm_num) h]
      exact lucas_branch _ 7 _ (by decide) (by decide) (by decide)
    rcases (Nat.Prime.dvd_mul hq).mp h with h | h
    · rw [prime_eq_of_dvd hq (by norm_num) h]
      exact lucas_branch _ 7 _ (by decide) (by decide) (by decide)
    rcases (Nat.Prime.dvd_mul hq).mp h with h | h
    · rw [prime_eq_of_dvd hq (by norm_num) h]
      exact lucas_branch _ 7 _ (by decide) (by decide) (by decide)
    rcases (Nat.Prime.dvd_mul hq).mp h with h | h
    · rw [prime_eq_of_dvd hq (by norm_num) h]
      exact lucas_branch _ 7 _ (by decide) (by decide) (by decide)
    rcases (Nat.Prime.dvd_mul hq).mp h with h | h
    · rw [prime_eq_of_dvd hq prime_107361793816595537 h]
      exact lucas_branch _ 7 _ (by decide) (by decide) (by decide)
    rcases (Nat.Prime.dvd_mul hq).mp h with h | h
    · rw [prime_eq_of_dvd hq prime_174723607534414371449 h]
      exact lucas_branch _ 7 _ (by decide) (by decide) (by decide)
    · rw [prime_eq_of_dvd hq prime_341948486974166000522343609283189 h]
      exact lucas_branch _ 7 _ (by decide) (by decide) (by decide)


instance : Fact (Nat.Prime n) := ⟨n_prime⟩

/-! ## Byte strings and the point model -/

/-- Big-endian byte-list to natural number (`bytesToNumberBE` of
`@noble/curves/abstract/utils`, external). -/
def bytesToNumberBE (bs : List ℕ) : ℕ := bs.foldl (fun acc b => acc * 256 + b) 0

/-- Natural number to fixed-width big-endian byte list (`numberToBytesBE`). -/
def numberToBytesBE : ℕ → ℕ → List ℕ
  | _, 0 => []
  | x, len + 1 => numberToBytesBE (x / 256) len ++ [x % 256]

/-- Point addition (`.add` on noble projective points), on discrete logs. -/
def padd (p q : ℕ) : ℕ := (p + q) % n

/-- Point subtraction (`.subtract`), on discrete logs. -/
def psub (p q : ℕ) : ℕ := (p + (n - q % n)) % n

/-- Scalar multiplication (`.multiply`), on discrete logs; modelled as the
total mathematical action (the spec treats scalar arithmetic and point
multiplication as an out-of-scope collaborator). -/
def pmul (p k : ℕ) : ℕ := p * k % n

/-- The base point `G` of `src/constants.mts`: discrete log `1`. -/
def Gpt : ℕ := 1

/-- 33-byte compressed SEC1 encoding (`point.toRawBytes(true)`), modelled as a
canonical injective encoding of the discrete-log representative. -/
def pointToBytes (p : ℕ) : List ℕ := 2 :: numberToBytesBE p 32

/-- `secp256k1.ProjectivePoint.fromHex` on a 33-byte compressed encoding:
succeeds exactly on canonical encodings of points other than the point at
infinity — compressed SEC1 cannot represent the point at infinity. -/
def pointFromBytes (bs : List ℕ) : Option ℕ :=
  if bs.length = 33 ∧ bs.take 1 = [2] ∧ 0 < bytesToNumberBE bs.tail ∧ bytesToNumberBE bs.tail < n
  then some (bytesToNumberBE bs.tail) else none

/-! ## Error taxonomy (`src/JPakeErrors.mts`) -/

/-- The four error classes thrown by the library.  `jpakeError` doubles as the
base class `JPakeError` and as the wrapper for uncaught exceptions raised by
the external curve library. -/
inductive JPakeErr where
  | jpakeError (msg : String)
  | invalidState (msg : String)
  | invalidArgument (msg : String)
  | verificationError (msg : String)
  | jsError (msg : String)
  deriving DecidableEq, Repr

/-! ## Schnorr ZKP (`src/schnorr.mts`)

Every function takes the SHA3-256 primitive as an explicit parameter
`hash : List ℕ → List ℕ`.  Local `const` bindings of the source are either
inlined or named as standalone definitions (`schnorrR`, `schnorrSerialized`),
with no change of meaning. -/

/-- The length-prefixed concatenation that `generateSchnorrChallenge` hashes:
`[len gx][gx][len V][V][len userId][userId][len info_i][info_i]...`. -/
def challengeInput (userId gxBytes grBytes : List ℕ) (otherInfo : List (List ℕ)) : List ℕ :=
  [gxBytes.length] ++ gxBytes ++ ([grBytes.length] ++ grBytes)
    ++ ([userId.length] ++ userId)
    ++ (otherInfo.map (fun info => [info.length] ++ info)).flatten

/-- `generateSchnorrChallenge userId gx gr otherInfo`: the Fiat-Shamir
challenge `SHA3-256(length-prefixed fields) mod n`, guarded by the 255-byte
length checks of the source.  The source evaluates `gx.toRawBytes(true)` and
`gr.toRawBytes(true)` before any length check; the noble `toRawBytes` calls
`assertValidity`, which throws a plain `Error("bad point: ZERO")` when the
point is the point at infinity — modelled as the two leading guards, the
`JPakeErr.jsError` constructor standing for an `Error` that is not a
`JPakeError` subclass. -/
def generateSchnorrChallenge (hash : List ℕ → List ℕ) (userId : List ℕ) (gx gr : ℕ)
    (otherInfo : List (List ℕ)) : Except JPakeErr ℕ :=
  if gx = 0 then .error (.jsError "bad point: ZERO")
  else if gr = 0 then .error (.jsError "bad point: ZERO")
  else if userId.length > 255 then
    .error (.invalidArgument "userId is too long. It must be 255 bytes or less when UTF-8 encoded.")
  else if (pointToBytes gx).length > 255 then
    .error (.invalidArgument "gxBytes is too long. It must be 255 bytes or less.")
  else if (pointToBytes gr).length > 255 then
    .error (.invalidArgument "grBytes is too long. It must be 255 bytes or less.")
  else if otherInfo.any (fun info => info.length > 255) then
    .error (.invalidArgument "Each otherInfo string must be 255 bytes or less when UTF-8 encoded.")
  else
    .ok (bytesToNumberBE (hash (challengeInput userId (pointToBytes gx) (pointToBytes gr) otherInfo)) % n)

/-- `verifySchnorrProof peerUserId gx proof g otherInfo` from `src/schnorr.mts`.
`VLength` and `rLength` are the source locals `proof[0]` and
`proof[1 + VLength]`, inlined; an out-of-range read of the `Uint8Array`
yields `undefined` in JS, which fails the `=== 32` comparison exactly as the
modelled default `0` does. -/
def verifySchnorrProof (hash : List ℕ → List ℕ) (peerUserId : List ℕ) (gx : ℕ)
    (proof : List ℕ) (g : ℕ) (otherInfo : List (List ℕ)) : Except JPakeErr Bool :=
  if proof.length ≠ 33 + 32 + 2 then
    .error (.verificationError "Invalid proof, must be 33 + 32 + 2 bytes long")
  else if proof.getD 0 0 ≠ 33 ∨ proof.getD (1 + proof.getD 0 0) 0 ≠ 32 then
    .error (.verificationError "Invalid proof, V must be 33 bytes and r must be 32 bytes")
  else
    match pointFromBytes ((proof.drop 1).take (proof.getD 0 0)) with
    | none => .ok false
    | some V =>
      match generateSchnorrChallenge hash peerUserId gx V otherInfo with
      | .error e => .error e
      | .ok c =>
        .ok (decide (V = padd
          (pmul g (bytesToNumberBE ((proof.drop (1 + proof.getD 0 0 + 1)).take
            (proof.getD (1 + proof.getD 0 0) 0))))
          (pmul gx c)))

/-- The source local `const r = numberToBytesBE(mod(v - x·c, n), 32)` before
serialization: `r = (v - x·c) mod n`, the noble `mod` of a possibly negative
bigint being `Int.emod` into `[0, n)`. -/
def schnorrR (v x c : ℕ) : ℕ := (((v : ℤ) - (x : ℤ) * (c : ℤ)) % (n : ℤ)).toNat

/-- The serialized proof `concatBytes([Vbytes.length], Vbytes, [r.length], r)`
of `generateSchnorrProof`. -/
def schnorrSerialized (V r : ℕ) : List ℕ :=
  [(pointToBytes V).length] ++ pointToBytes V
    ++ [(numberToBytesBE r 32).length] ++ numberToBytesBE r 32

/-- `generateSchnorrProof userId x gx g otherInfo`; the random nonce
`v = bytesToNumberBE (randomPrivateKey())` is passed in explicitly; the
source local `V = g·v` is inlined as `pmul g v`.  (The source defines
`generateSchnorrProof` before `verifySchnorrProof`; the order is swapped here
because the former calls the latter.) -/
def generateSchnorrProof (hash : List ℕ → List ℕ) (v : ℕ) (userId : List ℕ) (x : List ℕ)
    (gx g : ℕ) (otherInfo : List (List ℕ)) : Except JPakeErr (List ℕ) :=
  match generateSchnorrChallenge hash userId gx (pmul g v) otherInfo with
  | .error e => .error e
  | .ok c =>
    if (pointToBytes (pmul g v)).length ≠ 33 ∨
        (numberToBytesBE (schnorrR v (bytesToNumberBE x) c) 32).length ≠ 32 then
      .error (.jpakeError "Generated proof is invalid, V and r must be 33 and 32 bytes respectively")
    else
      match verifySchnorrProof hash userId gx
          (schnorrSerialized (pmul g v) (schnorrR v (bytesToNumberBE x) c)) g otherInfo with
      | .error e => .error e
      | .ok true => .ok (schnorrSerialized (pmul g v) (schnorrR v (bytesToNumberBE x) c))
      | .ok false => .error (.jpakeError "Generated Schnorr proof is invalid")

/-! ## Password-to-scalar (`deriveSFromPassword.mts`) -/

/-- UTF-8 bytes of the ASCII literal "retried". -/
def retriedSuffix : List ℕ := [114, 101, 116, 114, 105, 101, 100]

/-- `deriveSFromPassword`: hash the UTF-8 password, reduce mod `n`, retry on
zero with the literal suffix "retried" appended.  The source's `while` loop
recomputes the same hash on every iteration after the first retry, so it
either returns within two hash evaluations or never returns; the model yields
`none` in the diverging case. -/
def deriveSFromPassword (hash : List ℕ → List ℕ) (password : List ℕ) :
    Except JPakeErr (Option (List ℕ)) :=
  if password = [] then .error (.invalidArgument "Missing password")
  else if bytesToNumberBE (hash password) % n ≠ 0 then
    .ok (some (numberToBytesBE (bytesToNumberBE (hash password) % n) 32))
  else if bytesToNumberBE (hash (password ++ retriedSuffix)) % n ≠ 0 then
    .ok (some (numberToBytesBE (bytesToNumberBE (hash (password ++ retriedSuffix)) % n) 32))
  else .ok none

/-! ## The J-PAKE session (`src/JPake.mts`)

A session is a record of the mutable fields of the `JPake` class.  Each public
operation returns its result (or error) together with the post-state of the
session, capturing the partial mutations that persist when the source throws.
The JS truthiness checks on `Uint8Array`-typed arguments
(`!round1ResultBob.G1` etc.) can only fire on `undefined`, which the
TypeScript types exclude; they are not representable here.  The one
falsy-on-empty argument is the peer userId string, which is modelled. -/

inductive JPakeState where
  | INITIAL
  | ROUND1FINISHED
  | ROUND2FINISHED
  | ROUND2RESULTSRECEIVED
  | KEYDERIVED
  deriving DecidableEq, Repr

structure Round1Result where
  G1 : List ℕ
  G2 : List ℕ
  ZKPx1 : List ℕ
  ZKPx2 : List ℕ
  deriving DecidableEq, Repr

structure Round2Result where
  A : List ℕ
  ZKPx2s : List ℕ
  deriving DecidableEq, Repr

structure Session where
  userId : List ℕ
  otherInfo : List (List ℕ)
  state : JPakeState
  x1 : Option (List ℕ)
  x2 : Option (List ℕ)
  G1 : Option ℕ
  G2 : Option ℕ
  G3 : Option ℕ
  G4 : Option ℕ
  B : Option ℕ
  x2s : Option (List ℕ)
  ZKPx2sBob : Option (List ℕ)
  bobUserId : Option (List ℕ)
  deriving DecidableEq, Repr

/-- The `JPake` constructor. -/
def mkJPake (userId : List ℕ) (otherInfo : List (List ℕ)) : Except JPakeErr Session :=
  if userId = [] then .error (.invalidArgument "UserId cannot be empty")
  else .ok { userId := userId, otherInfo := otherInfo, state := .INITIAL,
             x1 := none, x2 := none, G1 := none, G2 := none, G3 := none, G4 := none,
             B := none, x2s := none, ZKPx2sBob := none, bobUserId := none }

/-- The private helper `verifyPeerProof`. -/
def verifyPeerProof (hash : List ℕ → List ℕ) (sess : Session) (peerUserId : List ℕ)
    (gx : ℕ) (proof : List ℕ) (g : ℕ) : Except JPakeErr Bool :=
  if sess.userId = peerUserId then
    .error (.verificationError "Proof verification failed, userIds are equal.")
  else if peerUserId = [] then
    .error (.invalidArgument "PeerUserId is empty.")
  else verifySchnorrProof hash peerUserId gx proof g sess.otherInfo

/-- `round1`.  The two ephemeral private keys and the two proof nonces are
drawn from `randomPrivateKey` (32 bytes whose big-endian value lies in
`[1, n)`); they enter as `x1v x2v v1 v2`, stored as the 32-byte buffers
`this.x1, this.x2` before the points and proofs are computed.  The final
`if (!this.G1 || !this.G2 || !ZKPx1 || !ZKPx2)` of the source can never fire
(objects and `Uint8Array`s are truthy in JS) and is omitted. -/
def round1 (hash : List ℕ → List ℕ) (x1v x2v v1 v2 : ℕ) (sess : Session) :
    Except JPakeErr Round1Result × Session :=
  if sess.state ≠ .INITIAL then
    (.error (.invalidState "Round 1 can only be executed in INITIAL state"), sess)
  else
    match generateSchnorrProof hash v1 sess.userId (numberToBytesBE x1v 32)
        (pmul Gpt (bytesToNumberBE (numberToBytesBE x1v 32))) Gpt sess.otherInfo with
    | .error e =>
      (.error e,
       { sess with
           x1 := some (numberToBytesBE x1v 32), x2 := some (numberToBytesBE x2v 32),
           G1 := some (pmul Gpt (bytesToNumberBE (numberToBytesBE x1v 32))),
           G2 := some (pmul Gpt (bytesToNumberBE (numberToBytesBE x2v 32))) })
    | .ok zkp1 =>
      match generateSchnorrProof hash v2 sess.userId (numberToBytesBE x2v 32)
          (pmul Gpt (bytesToNumberBE (numberToBytesBE x2v 32))) Gpt sess.otherInfo with
      | .error e =>
        (.error e,
         { sess with
             x1 := some (numberToBytesBE x1v 32), x2 := some (numberToBytesBE x2v 32),
             G1 := some (pmul Gpt (bytesToNumberBE (numberToBytesBE x1v 32))),
             G2 := some (pmul Gpt (bytesToNumberBE (numberToBytesBE x2v 32))) })
      | .ok zkp2 =>
        (.ok { G1 := pointToBytes (pmul Gpt (bytesToNumberBE (numberToBytesBE x1v 32))),
               G2 := pointToBytes (pmul Gpt (bytesToNumberBE (numberToBytesBE x2v 32))),
               ZKPx1 := zkp1, ZKPx2 := zkp2 },
         { sess with
             x1 := some (numberToBytesBE x1v 32), x2 := some (numberToBytesBE x2v 32),
             G1 := some (pmul Gpt (bytesToNumberBE (numberToBytesBE x1v 32))),
             G2 := some (pmul Gpt (bytesToNumberBE (numberToBytesBE x2v 32))),
             state := .ROUND1FINISHED })

/-- The combined scalar `x2s = (x2 · s) mod n` of `round2`, stored as 32
big-endian bytes (`this.x2s`). -/
def x2sBytes (x2b s : List ℕ) : List ℕ :=
  numberToBytesBE (bytesToNumberBE x2b * bytesToNumberBE s % n) 32

/-- `round2`.  The nonce of the `x2s` proof enters as `v`.  The source
verifies only the peer's `ZKPx1` (against Bob's `G1`) and never `ZKPx2`,
stores `bobUserId` before the verification, stores `G3, G4, x2s` before
generating its own proof, and places the point-at-infinity check after the
proof generation.  The locals `A` and `generator` are inlined
(`generator = G1 + G3 + G4`, `A = generator · x2s`). -/
def round2 (hash : List ℕ → List ℕ) (v : ℕ) (round1ResultBob : Round1Result)
    (s : List ℕ) (bobUserId : List ℕ) (sess : Session) :
    Except JPakeErr Round2Result × Session :=
  if sess.state ≠ .ROUND1FINISHED then
    (.error (.invalidState "Round 2 can only be executed after Round 1"), sess)
  else if bobUserId = [] then
    (.error (.invalidArgument "Missing required arguments for round 2"), sess)
  else
    match sess.x2, sess.G1 with
    | some x2b, some g1 =>
      match pointFromBytes round1ResultBob.G1, pointFromBytes round1ResultBob.G2 with
      | some bobG1, some bobG2 =>
        if bytesToNumberBE s % n = 0 then
          (.error (.invalidArgument "Invalid s: s MUST not be equal to 0 mod n"), sess)
        else
          match verifyPeerProof hash { sess with bobUserId := some bobUserId } bobUserId
              bobG1 round1ResultBob.ZKPx1 Gpt with
          | .error e => (.error e, { sess with bobUserId := some bobUserId })
          | .ok false =>
            (.error (.verificationError "ZKP verification failed"),
             { sess with bobUserId := some bobUserId })
          | .ok true =>
            match generateSchnorrProof hash v sess.userId (x2sBytes x2b s)
                (pmul (padd (padd g1 bobG1) bobG2) (bytesToNumberBE (x2sBytes x2b s)))
                (padd (padd g1 bobG1) bobG2) sess.otherInfo with
            | .error e =>
              (.error e,
               { sess with bobUserId := some bobUserId, G3 := some bobG1,
                           G4 := some bobG2, x2s := some (x2sBytes x2b s) })
            | .ok zkp =>
              if padd (padd g1 bobG1) bobG2 = 0 then
                (.error (.verificationError "Invalid point: The new generator is the point at infinity"),
                 { sess with bobUserId := some bobUserId, G3 := some bobG1,
                             G4 := some bobG2, x2s := some (x2sBytes x2b s) })
              else
                (.ok { A := pointToBytes (pmul (padd (padd g1 bobG1) bobG2)
                              (bytesToNumberBE (x2sBytes x2b s))),
                       ZKPx2s := zkp },
                 { sess with bobUserId := some bobUserId, G3 := some bobG1,
                             G4 := some bobG2, x2s := some (x2sBytes x2b s),
                             state := .ROUND2FINISHED })
      | _, _ =>
        (.error (.invalidArgument "Invalid points received: G1 or G2 is not a valid ProjectivePoint"), sess)
    | _, _ => (.error (.jpakeError "Missing required data for round 2"), sess)

/-- `setRound2ResultFromBob`.  `fromHex` on an invalid `A` throws an uncaught
plain `Error` from the curve library, modelled as `jpakeError`. -/
def setRound2ResultFromBob (round2ResultBob : Round2Result) (sess : Session) :
    Except JPakeErr Unit × Session :=
  if sess.state ≠ .ROUND2FINISHED then
    (.error (.invalidState "Round 2 results can only be set after Round 2 is finished"), sess)
  else
    match pointFromBytes round2ResultBob.A with
    | none => (.error (.jpakeError "Point invalid: could not decode round2ResultBob.A"), sess)
    | some b =>
      (.ok (), { sess with B := some b, ZKPx2sBob := some round2ResultBob.ZKPx2s,
                           state := .ROUND2RESULTSRECEIVED })

/-- `deriveSharedKey`.  Verifies Bob's round-2 proof against the generator
`G1 + G3 + G2`, computes `Ka = (B - G4·x2s)·x2` (both locals inlined) and
returns `SHA3-256(compressed Ka)`. -/
def deriveSharedKey (hash : List ℕ → List ℕ) (sess : Session) :
    Except JPakeErr (List ℕ) × Session :=
  if sess.state ≠ .ROUND2RESULTSRECEIVED then
    (.error (.invalidState "Shared key can only be derived after receiving Round 2 results"), sess)
  else
    match sess.B, sess.G1, sess.G2, sess.G3, sess.G4, sess.x2, sess.x2s,
        sess.ZKPx2sBob, sess.bobUserId with
    | some b, some g1, some g2, some g3, some g4, some x2b, some x2sb, some zkb, some bobId =>
      if b = 0 then
        (.error (.verificationError "Invalid point: B is the point at infinity"), sess)
      else
        match verifyPeerProof hash sess bobId b zkb (padd (padd g1 g3) g2) with
        | .error e => (.error e, sess)
        | .ok false => (.error (.verificationError "ZKP verification failed"), sess)
        | .ok true =>
          if pmul (psub b (pmul g4 (bytesToNumberBE x2sb))) (bytesToNumberBE x2b) = 0 then
            (.error (.jsError "bad point: ZERO"), sess)
          else
            (.ok (hash (pointToBytes (pmul (psub b (pmul g4 (bytesToNumberBE x2sb)))
                (bytesToNumberBE x2b)))),
             { sess with state := .KEYDERIVED })
    | _, _, _, _, _, _, _, _, _ =>
      (.error (.jpakeError "Missing required data for key derivation"), sess)

/-! ## Basic facts about the byte and point model -/

theorem n_pos : 0 < n := by decide

instance : NeZero n := ⟨by decide⟩

theorem n_lt_byte32 : n < 256 ^ 32 := by decide

theorem numberToBytesBE_length (len : ℕ) : ∀ x, (numberToBytesBE x len).length = len := by
  induction len with
  | zero => intro x; rfl
  | succ l ih => intro x; simp [numberToBytesBE, ih]

theorem bytesToNumberBE_append (l : List ℕ) (b : ℕ) :
    bytesToNumberBE (l ++ [b]) = bytesToNumberBE l * 256 + b := by
  simp [bytesToNumberBE, List.foldl_append]

theorem bytesToNumberBE_numberToBytesBE (len : ℕ) : ∀ x,
    bytesToNumberBE (numberToBytesBE x len) = x % 256 ^ len := by
  induction len with
  | zero => intro x; simp [numberToBytesBE, bytesToNumberBE, Nat.mod_one]
  | succ l ih =>
    intro x
    rw [numberToBytesBE, bytesToNumberBE_append, ih, pow_succ,
      mul_comm ((256:ℕ) ^ l) 256, Nat.mod_mul]
    omega

theorem pointToBytes_length (p : ℕ) : (pointToBytes p).length = 33 := by
  simp [pointToBytes, numberToBytesBE_length]

theorem pointFromBytes_pointToBytes {p : ℕ} (h0 : 0 < p) (hn : p < n) :
    pointFromBytes (pointToBytes p) = some p := by
  have htail : bytesToNumberBE (pointToBytes p).tail = p := by
    show bytesToNumberBE (numberToBytesBE p 32) = p
    rw [bytesToNumberBE_numberToBytesBE, Nat.mod_eq_of_lt (lt_trans hn n_lt_byte32)]
  have htake : (pointToBytes p).take 1 = [2] := rfl
  simp [pointFromBytes, pointToBytes_length, htake, htail, h0, hn]

theorem pointFromBytes_some {bs : List ℕ} {p : ℕ} (h : pointFromBytes bs = some p) :
    0 < p ∧ p < n := by
  unfold pointFromBytes at h
  split at h
  · next hc => cases h; exact ⟨hc.2.2.1, hc.2.2.2⟩
  · cases h

/-! ## Casting the point model into `ZMod n` -/

theorem natCast_padd (a b : ℕ) : ((padd a b : ℕ) : ZMod n) = (a : ZMod n) + b := by
  rw [padd, ZMod.natCast_mod, Nat.cast_add]

theorem natCast_pmul (a b : ℕ) : ((pmul a b : ℕ) : ZMod n) = (a : ZMod n) * b := by
  rw [pmul, ZMod.natCast_mod, Nat.cast_mul]

theorem natCast_psub (a b : ℕ) : ((psub a b : ℕ) : ZMod n) = (a : ZMod n) - b := by
  rw [psub, ZMod.natCast_mod, Nat.cast_add,
    Nat.cast_sub (le_of_lt (Nat.mod_lt b n_pos)), ZMod.natCast_self, ZMod.natCast_mod]
  ring

theorem padd_lt (a b : ℕ) : padd a b < n := Nat.mod_lt _ n_pos

theorem pmul_lt (a b : ℕ) : pmul a b < n := Nat.mod_lt _ n_pos

theorem psub_lt (a b : ℕ) : psub a b < n := Nat.mod_lt _ n_pos

theorem zmod_inj {a b : ℕ} (ha : a < n) (hb : b < n) (h : (a : ZMod n) = b) : a = b := by
  have hv := congrArg ZMod.val h
  rwa [ZMod.val_cast_of_lt ha, ZMod.val_cast_of_lt hb] at hv

theorem natCast_ne_zero_of_lt {a : ℕ} (h0 : 0 < a) (hn : a < n) : (a : ZMod n) ≠ 0 := by
  intro h
  rw [ZMod.natCast_zmod_eq_zero_iff_dvd] at h
  exact absurd (Nat.le_of_dvd h0 h) (by omega)

theorem pos_of_natCast_ne_zero {a : ℕ} (h : (a : ZMod n) ≠ 0) : 0 < a := by
  rcases Nat.eq_zero_or_pos a with rfl | hp
  · exact absurd (by exact_mod_cast rfl) h
  · exact hp

/-! ## Schnorr completeness -/

/-- The challenge value on the success path of `generateSchnorrChallenge`. -/
def challengeVal (hash : List ℕ → List ℕ) (userId : List ℕ) (gx gr : ℕ)
    (otherInfo : List (List ℕ)) : ℕ :=
  bytesToNumberBE (hash (challengeInput userId (pointToBytes gx) (pointToBytes gr) otherInfo)) % n

/-- The serialized proof `[33][V][32][r]` in cons normal form. -/
def schnorrProofBytes (V r : ℕ) : List ℕ :=
  33 :: (pointToBytes V ++ (32 :: numberToBytesBE r 32))

theorem schnorrSerialized_eq (V r : ℕ) : schnorrSerialized V r = schnorrProofBytes V r := by
  simp [schnorrSerialized, schnorrProofBytes, pointToBytes_length, numberToBytesBE_length]

theorem challengeVal_lt (hash : List ℕ → List ℕ) (u : List ℕ) (gx gr : ℕ)
    (oi : List (List ℕ)) : challengeVal hash u gx gr oi < n := Nat.mod_lt _ n_pos

theorem schnorrR_lt (v x c : ℕ) : schnorrR v x c < n := by
  unfold schnorrR
  have h1 : ((v:ℤ) - (x:ℤ) * (c:ℤ)) % (n:ℤ) < (n:ℤ) :=
    Int.emod_lt_of_pos _ (by exact_mod_cast n_pos)
  have h2 : 0 ≤ ((v:ℤ) - (x:ℤ) * (c:ℤ)) % (n:ℤ) :=
    Int.emod_nonneg _ (by exact_mod_cast n_pos.ne')
  omega

theorem natCast_schnorrR (v x c : ℕ) :
    ((schnorrR v x c : ℕ) : ZMod n) = (v : ZMod n) - (x : ZMod n) * c := by
  unfold schnorrR
  have h2 : 0 ≤ ((v:ℤ) - (x:ℤ) * (c:ℤ)) % (n:ℤ) :=
    Int.emod_nonneg _ (by exact_mod_cast n_pos.ne')
  calc (((((v:ℤ) - (x:ℤ) * (c:ℤ)) % (n:ℤ)).toNat : ℕ) : ZMod n)
      = (((((v:ℤ) - (x:ℤ) * (c:ℤ)) % (n:ℤ)).toNat : ℤ) : ZMod n) := (Int.cast_natCast _).symm
    _ = ((((v:ℤ) - (x:ℤ) * (c:ℤ)) % (n:ℤ) : ℤ) : ZMod n) := by rw [Int.toNat_of_nonneg h2]
    _ = (((v:ℤ) - (x:ℤ) * (c:ℤ) : ℤ) : ZMod n) := ZMod.intCast_mod _ _
    _ = (v : ZMod n) - (x : ZMod n) * c := by push_cast; ring

theorem generateSchnorrChallenge_ok (hash : List ℕ → List ℕ) (u : List ℕ) (gx gr : ℕ)
    (oi : List (List ℕ)) (hu : u.length ≤ 255) (hoi : ∀ i ∈ oi, i.length ≤ 255)
    (hgx : gx ≠ 0) (hgr : gr ≠ 0) :
    generateSchnorrChallenge hash u gx gr oi = .ok (challengeVal hash u gx gr oi) := by
  have h4 : oi.any (fun info => info.length > 255) = false := by
    rw [List.any_eq_false]
    intro i hi
    simp only [gt_iff_lt, decide_eq_true_eq, not_lt]
    exact hoi i hi
  unfold generateSchnorrChallenge challengeVal
  rw [if_neg hgx, if_neg hgr, if_neg (by omega), if_neg (by rw [pointToBytes_length]; omega),
    if_neg (by rw [pointToBytes_length]; omega), if_neg (by simp [h4])]

theorem verifySchnorrProof_generated (hash : List ℕ → List ℕ) (u x : List ℕ)
    (oi : List (List ℕ)) (g gx v : ℕ)
    (hu : u.length ≤ 255) (hoi : ∀ i ∈ oi, i.length ≤ 255)
    (hg0 : (g : ZMod n) ≠ 0) (hv0 : (v : ZMod n) ≠ 0)
    (hrel : (gx : ZMod n) = (g : ZMod n) * (bytesToNumberBE x : ZMod n))
    (hgx0 : gx ≠ 0) :
    verifySchnorrProof hash u gx
      (schnorrProofBytes (pmul g v) (schnorrR v (bytesToNumberBE x)
        (challengeVal hash u gx (pmul g v) oi))) g oi = .ok true := by
  set V := pmul g v with hV
  set c := challengeVal hash u gx V oi with hc
  set R := schnorrR v (bytesToNumberBE x) c with hR
  have hVlt : V < n := pmul_lt g v
  have hVcast : (V : ZMod n) = (g : ZMod n) * v := natCast_pmul g v
  have hV0 : 0 < V := pos_of_natCast_ne_zero (by rw [hVcast]; exact mul_ne_zero hg0 hv0)
  have hRlt : R < n := schnorrR_lt _ _ _
  have hlen : (schnorrProofBytes V R).length = 67 := by
    simp [schnorrProofBytes, pointToBytes_length, numberToBytesBE_length]
  have hget0 : (schnorrProofBytes V R).getD 0 0 = 33 := rfl
  have hget34 : (schnorrProofBytes V R).getD (1 + 33) 0 = 32 := by
    have hform : schnorrProofBytes V R
        = ([33] ++ pointToBytes V) ++ (32 :: numberToBytesBE R 32) := by
      simp [schnorrProofBytes]
    rw [hform, List.getD_append_right _ _ _ _ (by simp [pointToBytes_length])]
    simp [pointToBytes_length]
  have hget34b : (schnorrProofBytes V R).getD 34 0 = 32 := hget34
  have hsliceV : ((schnorrProofBytes V R).drop 1).take 33 = pointToBytes V := by
    have hform : schnorrProofBytes V R
        = [33] ++ (pointToBytes V ++ (32 :: numberToBytesBE R 32)) := by
      simp [schnorrProofBytes]
    rw [hform, show (1:ℕ) = ([33] : List ℕ).length from rfl, List.drop_left,
      ← pointToBytes_length V, List.take_left]
  have hsliceR : ((schnorrProofBytes V R).drop 35).take 32 = numberToBytesBE R 32 := by
    have hform : schnorrProofBytes V R
        = (33 :: (pointToBytes V ++ [32])) ++ numberToBytesBE R 32 := by
      simp [schnorrProofBytes]
    have h35 : ((33 : ℕ) :: (pointToBytes V ++ [32])).length = 35 := by
      simp [pointToBytes_length]
    rw [hform, ← h35, List.drop_left]
    exact List.take_of_length_le (by simp [numberToBytesBE_length])
  have hRbytes : bytesToNumberBE (numberToBytesBE R 32) = R := by
    rw [bytesToNumberBE_numberToBytesBE]
    exact Nat.mod_eq_of_lt (lt_trans hRlt n_lt_byte32)
  have hchal : generateSchnorrChallenge hash u gx V oi = .ok c :=
    generateSchnorrChallenge_ok hash u gx V oi hu hoi hgx0 (Nat.pos_iff_ne_zero.mp hV0)
  have hdecode : pointFromBytes (pointToBytes V) = some V :=
    pointFromBytes_pointToBytes hV0 hVlt
  have heq : V = padd (pmul g R) (pmul gx c) := by
    apply zmod_inj hVlt (padd_lt _ _)
    rw [hVcast, natCast_padd, natCast_pmul, natCast_pmul, hR, natCast_schnorrR, hrel]
    ring
  unfold verifySchnorrProof
  rw [hlen, if_neg (by norm_num), hget0, show (1:ℕ) + 33 = 34 from rfl, hget34b,
    if_neg (by norm_num), show (34:ℕ) + 1 = 35 from rfl, hsliceV, hsliceR, hRbytes, hdecode]
  simp only []
  rw [hchal]
  simp only []
  simp [heq]

theorem generateSchnorrProof_ok (hash : List ℕ → List ℕ) (u x : List ℕ)
    (oi : List (List ℕ)) (g gx v : ℕ)
    (hu : u.length ≤ 255) (hoi : ∀ i ∈ oi, i.length ≤ 255)
    (hg0 : (g : ZMod n) ≠ 0) (hv0 : (v : ZMod n) ≠ 0)
    (hrel : (gx : ZMod n) = (g : ZMod n) * (bytesToNumberBE x : ZMod n))
    (hgx0 : gx ≠ 0) :
    generateSchnorrProof hash v u x gx g oi = .ok (schnorrProofBytes (pmul g v)
      (schnorrR v (bytesToNumberBE x) (challengeVal hash u gx (pmul g v) oi))) := by
  set V := pmul g v with hV
  set c := challengeVal hash u gx V oi with hc
  set R := schnorrR v (bytesToNumberBE x) c with hR
  have hV0 : 0 < V := pos_of_natCast_ne_zero
    (by rw [hV, natCast_pmul]; exact mul_ne_zero hg0 hv0)
  have hchal : generateSchnorrChallenge hash u gx V oi = .ok c :=
    generateSchnorrChallenge_ok hash u gx V oi hu hoi hgx0 (Nat.pos_iff_ne_zero.mp hV0)
  have hver := verifySchnorrProof_generated hash u x oi g gx v hu hoi hg0 hv0 hrel hgx0
  rw [← hV, ← hc, ← hR] at hver
  unfold generateSchnorrProof
  rw [hchal]
  simp only []
  rw [if_neg (by simp [pointToBytes_length, numberToBytesBE_length]),
    schnorrSerialized_eq, hver]

/-! ## The public-operation machinery

`PubOp` packages one call to a public operation together with its arguments
(randomness included); `applyOp` runs it, keeping the outcome and the
post-state; `runOps` folds a call sequence over a session. -/

inductive PubOp where
  | opRound1 (x1v x2v v1 v2 : ℕ)
  | opRound2 (v : ℕ) (r1b : Round1Result) (s bobId : List ℕ)
  | opSetRound2 (r2b : Round2Result)
  | opDerive

def applyOp (hash : List ℕ → List ℕ) (op : PubOp) (sess : Session) :
    Except JPakeErr Unit × Session :=
  match op with
  | .opRound1 x1v x2v v1 v2 =>
    ((round1 hash x1v x2v v1 v2 sess).1.map (fun _ => ()),
     (round1 hash x1v x2v v1 v2 sess).2)
  | .opRound2 v r1b s bobId =>
    ((round2 hash v r1b s bobId sess).1.map (fun _ => ()),
     (round2 hash v r1b s bobId sess).2)
  | .opSetRound2 r2b => setRound2ResultFromBob r2b sess
  | .opDerive =>
    ((deriveSharedKey hash sess).1.map (fun _ => ()), (deriveSharedKey hash sess).2)

/-- The unique source state in which each public operation is permitted. -/
def opSource : PubOp → JPakeState
  | .opRound1 .. => .INITIAL
  | .opRound2 .. => .ROUND1FINISHED
  | .opSetRound2 .. => .ROUND2FINISHED
  | .opDerive => .ROUND2RESULTSRECEIVED

/-- Linear index of the session states, in protocol order. -/
def stateIdx : JPakeState → ℕ
  | .INITIAL => 0
  | .ROUND1FINISHED => 1
  | .ROUND2FINISHED => 2
  | .ROUND2RESULTSRECEIVED => 3
  | .KEYDERIVED => 4

def runOps (hash : List ℕ → List ℕ) (ops : List PubOp) (sess : Session) : Session :=
  ops.foldl (fun s op => (applyOp hash op s).2) sess

/-- Marker for the `InvalidState` error class. -/
def JPakeErr.isInvalidStateErr : JPakeErr → Bool
  | .invalidState _ => true
  | _ => false

theorem generateSchnorrChallenge_err {hash : List ℕ → List ℕ} {u : List ℕ} {gx gr : ℕ}
    {oi : List (List ℕ)} {e : JPakeErr}
    (h : generateSchnorrChallenge hash u gx gr oi = .error e) :
    e.isInvalidStateErr = false := by
  unfold generateSchnorrChallenge at h
  split at h
  · cases h; rfl
  split at h
  · cases h; rfl
  split at h
  · cases h; rfl
  split at h
  · cases h; rfl
  split at h
  · cases h; rfl
  split at h
  · cases h; rfl
  · cases h

theorem verifySchnorrProof_err {hash : List ℕ → List ℕ} {u : List ℕ} {gx : ℕ}
    {proof : List ℕ} {g : ℕ} {oi : List (List ℕ)} {e : JPakeErr}
    (h : verifySchnorrProof hash u gx proof g oi = .error e) :
    e.isInvalidStateErr = false := by
  unfold verifySchnorrProof at h
  split at h
  · cases h; rfl
  split at h
  · cases h; rfl
  split at h
  · cases h
  · split at h
    · next heq => cases h; exact generateSchnorrChallenge_err heq
    · cases h

theorem generateSchnorrProof_err {hash : List ℕ → List ℕ} {v : ℕ} {u x : List ℕ}
    {gx g : ℕ} {oi : List (List ℕ)} {e : JPakeErr}
    (h : generateSchnorrProof hash v u x gx g oi = .error e) :
    e.isInvalidStateErr = false := by
  unfold generateSchnorrProof at h
  split at h
  · next heq => cases h; exact generateSchnorrChallenge_err heq
  · split at h
    · cases h; rfl
    split at h
    · next heq => cases h; exact verifySchnorrProof_err heq
    · cases h
    · cases h; rfl

theorem verifyPeerProof_err {hash : List ℕ → List ℕ} {sess : Session} {p : List ℕ}
    {gx : ℕ} {proof : List ℕ} {g : ℕ} {e : JPakeErr}
    (h : verifyPeerProof hash sess p gx proof g = .error e) :
    e.isInvalidStateErr = false := by
  unfold verifyPeerProof at h
  split at h
  · cases h; rfl
  split at h
  · cases h; rfl
  · exact verifySchnorrProof_err h

/-- The result is anything except an `InvalidState` error. -/
def resultNotInvalidState {α : Type} : Except JPakeErr α → Prop
  | .error (.invalidState _) => False
  | _ => True

theorem resultNotInvalidState_of_err {α : Type} {e : JPakeErr}
    (h : e.isInvalidStateErr = false) :
    resultNotInvalidState (α := α) (.error e) := by
  cases e <;> simp_all [JPakeErr.isInvalidStateErr, resultNotInvalidState]

theorem resultNotInvalidState_iff {α : Type} (r : Except JPakeErr α) :
    resultNotInvalidState r ↔ ∀ m, r ≠ .error (.invalidState m) := by
  constructor
  · intro h m hr
    subst hr
    exact h
  · intro h
    match r with
    | .ok a => trivial
    | .error (.jpakeError m) => trivial
    | .error (.invalidArgument m) => trivial
    | .error (.verificationError m) => trivial
    | .error (.jsError m) => trivial
    | .error (.invalidState m) => exact absurd rfl (h m)

/-! ### Per-operation state-machine facts -/

theorem round1_wrong_state {hash : List ℕ → List ℕ} {x1v x2v v1 v2 : ℕ} {sess : Session}
    (h : sess.state ≠ .INITIAL) :
    round1 hash x1v x2v v1 v2 sess
      = (.error (.invalidState "Round 1 can only be executed in INITIAL state"), sess) := by
  unfold round1
  rw [if_pos h]

theorem round2_wrong_state {hash : List ℕ → List ℕ} {v : ℕ} {r1b : Round1Result}
    {s bobId : List ℕ} {sess : Session} (h : sess.state ≠ .ROUND1FINISHED) :
    round2 hash v r1b s bobId sess
      = (.error (.invalidState "Round 2 can only be executed after Round 1"), sess) := by
  unfold round2
  rw [if_pos h]

theorem setRound2_wrong_state {r2b : Round2Result} {sess : Session}
    (h : sess.state ≠ .ROUND2FINISHED) :
    setRound2ResultFromBob r2b sess
      = (.error (.invalidState "Round 2 results can only be set after Round 2 is finished"), sess) := by
  unfold setRound2ResultFromBob
  rw [if_pos h]

theorem deriveSharedKey_wrong_state {hash : List ℕ → List ℕ} {sess : Session}
    (h : sess.state ≠ .ROUND2RESULTSRECEIVED) :
    deriveSharedKey hash sess
      = (.error (.invalidState "Shared key can only be derived after receiving Round 2 results"), sess) := by
  unfold deriveSharedKey
  rw [if_pos h]

theorem round1_right_state_ok {hash : List ℕ → List ℕ} {x1v x2v v1 v2 : ℕ} {sess : Session}
    (h : sess.state = .INITIAL) :
    resultNotInvalidState (round1 hash x1v x2v v1 v2 sess).1 := by
  unfold round1
  rw [if_neg (by simp [h])]
  repeat' split
  all_goals try exact trivial
  all_goals rename_i heq
  all_goals exact resultNotInvalidState_of_err (generateSchnorrProof_err heq)

theorem round2_right_state_ok {hash : List ℕ → List ℕ} {v : ℕ} {r1b : Round1Result}
    {s bobId : List ℕ} {sess : Session} (h : sess.state = .ROUND1FINISHED) :
    resultNotInvalidState (round2 hash v r1b s bobId sess).1 := by
  unfold round2
  rw [if_neg (by simp [h])]
  repeat' split
  all_goals try exact trivial
  all_goals rename_i heq
  all_goals first
    | (with_reducible exact resultNotInvalidState_of_err (verifyPeerProof_err heq))
    | (with_reducible exact resultNotInvalidState_of_err (generateSchnorrProof_err heq))

theorem setRound2_right_state_ok {r2b : Round2Result} {sess : Session}
    (h : sess.state = .ROUND2FINISHED) :
    resultNotInvalidState (setRound2ResultFromBob r2b sess).1 := by
  unfold setRound2ResultFromBob
  rw [if_neg (by simp [h])]
  repeat' split
  all_goals trivial

theorem deriveSharedKey_right_state_ok {hash : List ℕ → List ℕ} {sess : Session}
    (h : sess.state = .ROUND2RESULTSRECEIVED) :
    resultNotInvalidState (deriveSharedKey hash sess).1 := by
  unfold deriveSharedKey
  rw [if_neg (by simp [h])]
  repeat' split
  all_goals try exact trivial
  all_goals rename_i heq
  all_goals exact resultNotInvalidState_of_err (verifyPeerProof_err heq)

theorem round1_post_state {hash : List ℕ → List ℕ} {x1v x2v v1 v2 : ℕ} {sess : Session} :
    (round1 hash x1v x2v v1 v2 sess).2.state = sess.state ∨
      (sess.state = .INITIAL ∧ (round1 hash x1v x2v v1 v2 sess).2.state = .ROUND1FINISHED) := by
  unfold round1
  split
  · left; rfl
  next h =>
    repeat' split
    all_goals try (left; rfl)
    right
    exact ⟨not_ne_iff.mp h, rfl⟩

theorem round2_post_state {hash : List ℕ → List ℕ} {v : ℕ} {r1b : Round1Result}
    {s bobId : List ℕ} {sess : Session} :
    (round2 hash v r1b s bobId sess).2.state = sess.state ∨
      (sess.state = .ROUND1FINISHED ∧
        (round2 hash v r1b s bobId sess).2.state = .ROUND2FINISHED) := by
  unfold round2
  split
  · left; rfl
  next h =>
    repeat' split
    all_goals try (left; rfl)
    right
    exact ⟨not_ne_iff.mp h, rfl⟩

theorem setRound2_post_state {r2b : Round2Result} {sess : Session} :
    (setRound2ResultFromBob r2b sess).2.state = sess.state ∨
      (sess.state = .ROUND2FINISHED ∧
        (setRound2ResultFromBob r2b sess).2.state = .ROUND2RESULTSRECEIVED) := by
  unfold setRound2ResultFromBob
  split
  · left; rfl
  next h =>
    repeat' split
    all_goals try (left; rfl)
    right
    exact ⟨not_ne_iff.mp h, rfl⟩

theorem deriveSharedKey_post_state {hash : List ℕ → List ℕ} {sess : Session} :
    (deriveSharedKey hash sess).2.state = sess.state ∨
      (sess.state = .ROUND2RESULTSRECEIVED ∧
        (deriveSharedKey hash sess).2.state = .KEYDERIVED) := by
  unfold deriveSharedKey
  split
  · left; rfl
  next h =>
    repeat' split
    all_goals try (left; rfl)
    right
    exact ⟨not_ne_iff.mp h, rfl⟩

theorem round1_err_state {hash : List ℕ → List ℕ} {x1v x2v v1 v2 : ℕ} {sess : Session}
    {e : JPakeErr} (he : (round1 hash x1v x2v v1 v2 sess).1 = .error e) :
    (round1 hash x1v x2v v1 v2 sess).2.state = sess.state := by
  revert he
  unfold round1
  repeat' split
  all_goals intro he
  all_goals first | rfl | simp at he

theorem round2_err_state {hash : List ℕ → List ℕ} {v : ℕ} {r1b : Round1Result}
    {s bobId : List ℕ} {sess : Session} {e : JPakeErr}
    (he : (round2 hash v r1b s bobId sess).1 = .error e) :
    (round2 hash v r1b s bobId sess).2.state = sess.state := by
  revert he
  unfold round2
  repeat' split
  all_goals intro he
  all_goals first | rfl | simp at he

theorem setRound2_err_state {r2b : Round2Result} {sess : Session} {e : JPakeErr}
    (he : (setRound2ResultFromBob r2b sess).1 = .error e) :
    (setRound2ResultFromBob r2b sess).2.state = sess.state := by
  revert he
  unfold setRound2ResultFromBob
  repeat' split
  all_goals intro he
  all_goals first | rfl | simp at he

theorem deriveSharedKey_err_state {hash : List ℕ → List ℕ} {sess : Session} {e : JPakeErr}
    (he : (deriveSharedKey hash sess).1 = .error e) :
    (deriveSharedKey hash sess).2.state = sess.state := by
  revert he
  unfold deriveSharedKey
  repeat' split
  all_goals intro he
  all_goals first | rfl | simp at he

/-! ### Which fields each operation can touch -/

theorem round1_B {hash : List ℕ → List ℕ} {x1v x2v v1 v2 : ℕ} {sess : Session} :
    (round1 hash x1v x2v v1 v2 sess).2.B = sess.B := by
  unfold round1
  repeat' split
  all_goals rfl

theorem round2_B {hash : List ℕ → List ℕ} {v : ℕ} {r1b : Round1Result}
    {s bobId : List ℕ} {sess : Session} :
    (round2 hash v r1b s bobId sess).2.B = sess.B := by
  unfold round2
  repeat' split
  all_goals rfl

theorem setRound2_B {r2b : Round2Result} {sess : Session} :
    (setRound2ResultFromBob r2b sess).2.B = sess.B ∨
      ∃ b, pointFromBytes r2b.A = some b ∧ (setRound2ResultFromBob r2b sess).2.B = some b := by
  unfold setRound2ResultFromBob
  repeat' split
  · left; rfl
  · left; rfl
  · next b heq => right; exact ⟨b, heq, rfl⟩

theorem deriveSharedKey_B {hash : List ℕ → List ℕ} {sess : Session} :
    (deriveSharedKey hash sess).2.B = sess.B := by
  unfold deriveSharedKey
  repeat' split
  all_goals rfl

/-- The session invariant behind C10: any stored `B` is a genuine non-infinity
point of the model, i.e. a value in `(0, n)`. -/
def goodB (sess : Session) : Prop := ∀ b, sess.B = some b → 0 < b ∧ b < n

theorem applyOp_goodB {hash : List ℕ → List ℕ} {op : PubOp} {sess : Session}
    (h : goodB sess) : goodB (applyOp hash op sess).2 := by
  cases op with
  | opRound1 x1v x2v v1 v2 =>
    intro b hb
    simp only [applyOp] at hb
    rw [round1_B] at hb
    exact h b hb
  | opRound2 v r1b s bobId =>
    intro b hb
    simp only [applyOp] at hb
    rw [round2_B] at hb
    exact h b hb
  | opSetRound2 r2b =>
    intro b hb
    simp only [applyOp] at hb
    rcases @setRound2_B r2b sess with h1 | ⟨b', hdec, h2⟩
    · rw [h1] at hb
      exact h b hb
    · rw [h2] at hb
      cases hb
      exact pointFromBytes_some hdec
  | opDerive =>
    intro b hb
    simp only [applyOp] at hb
    rw [deriveSharedKey_B] at hb
    exact h b hb

theorem runOps_goodB {hash : List ℕ → List ℕ} {ops : List PubOp} :
    ∀ {sess : Session}, goodB sess → goodB (runOps hash ops sess) := by
  induction ops with
  | nil => intro sess h; exact h
  | cons op ops ih =>
    intro sess h
    exact ih (applyOp_goodB h)

theorem applyOp_state_mono (hash : List ℕ → List ℕ) (op : PubOp) (sess : Session) :
    stateIdx sess.state ≤ stateIdx (applyOp hash op sess).2.state := by
  cases op with
  | opRound1 x1v x2v v1 v2 =>
    simp only [applyOp]
    rcases @round1_post_state hash x1v x2v v1 v2 sess with h | ⟨h1, h2⟩
    · rw [h]
    · rw [h2, h1]; decide
  | opRound2 v r1b s bobId =>
    simp only [applyOp]
    rcases @round2_post_state hash v r1b s bobId sess with h | ⟨h1, h2⟩
    · rw [h]
    · rw [h2, h1]; decide
  | opSetRound2 r2b =>
    simp only [applyOp]
    rcases @setRound2_post_state r2b sess with h | ⟨h1, h2⟩
    · rw [h]
    · rw [h2, h1]; decide
  | opDerive =>
    simp only [applyOp]
    rcases @deriveSharedKey_post_state hash sess with h | ⟨h1, h2⟩
    · rw [h]
    · rw [h2, h1]; decide

theorem runOps_state_mono (hash : List ℕ → List ℕ) (ops : List PubOp) :
    ∀ sess : Session, stateIdx sess.state ≤ stateIdx (runOps hash ops sess).state := by
  induction ops with
  | nil => intro sess; exact le_refl _
  | cons op ops ih =>
    intro sess
    exact le_trans (applyOp_state_mono hash op sess) (ih (applyOp hash op sess).2)

theorem except_map_err {α β : Type} {r : Except JPakeErr α} {f : α → β} {e : JPakeErr}
    (h : r.map f = .error e) : r = .error e := by
  cases r <;> simp_all [Except.map]

/-! ### Error-message shapes, for the unreachability argument of C10 -/

theorem generateSchnorrChallenge_err_shape {hash : List ℕ → List ℕ} {u : List ℕ}
    {gx gr : ℕ} {oi : List (List ℕ)} {e : JPakeErr}
    (h : generateSchnorrChallenge hash u gx gr oi = .error e) :
    (∃ m, e = .invalidArgument m) ∨ (∃ m, e = .jsError m) := by
  unfold generateSchnorrChallenge at h
  split at h
  · cases h; exact Or.inr ⟨_, rfl⟩
  split at h
  · cases h; exact Or.inr ⟨_, rfl⟩
  split at h
  · cases h; exact Or.inl ⟨_, rfl⟩
  split at h
  · cases h; exact Or.inl ⟨_, rfl⟩
  split at h
  · cases h; exact Or.inl ⟨_, rfl⟩
  split at h
  · cases h; exact Or.inl ⟨_, rfl⟩
  · cases h

theorem verifySchnorrProof_err_shape {hash : List ℕ → List ℕ} {u : List ℕ} {gx : ℕ}
    {proof : List ℕ} {g : ℕ} {oi : List (List ℕ)} {e : JPakeErr}
    (h : verifySchnorrProof hash u gx proof g oi = .error e) :
    e = .verificationError "Invalid proof, must be 33 + 32 + 2 bytes long" ∨
    e = .verificationError "Invalid proof, V must be 33 bytes and r must be 32 bytes" ∨
    (∃ m, e = .invalidArgument m) ∨ (∃ m, e = .jsError m) := by
  unfold verifySchnorrProof at h
  split at h
  · cases h; left; rfl
  split at h
  · cases h; right; left; rfl
  split at h
  · cases h
  · split at h
    · next heq =>
      cases h
      rcases generateSchnorrChallenge_err_shape heq with h1 | h1
      · exact Or.inr (Or.inr (Or.inl h1))
      · exact Or.inr (Or.inr (Or.inr h1))
    · cases h

theorem verifyPeerProof_err_shape {hash : List ℕ → List ℕ} {sess : Session}
    {p : List ℕ} {gx : ℕ} {proof : List ℕ} {g : ℕ} {e : JPakeErr}
    (h : verifyPeerProof hash sess p gx proof g = .error e) :
    e = .verificationError "Proof verification failed, userIds are equal." ∨
    e = .verificationError "Invalid proof, must be 33 + 32 + 2 bytes long" ∨
    e = .verificationError "Invalid proof, V must be 33 bytes and r must be 32 bytes" ∨
    (∃ m, e = .invalidArgument m) ∨ (∃ m, e = .jsError m) := by
  unfold verifyPeerProof at h
  split at h
  · cases h; left; rfl
  split at h
  · cases h; right; right; right; left; exact ⟨_, rfl⟩
  · rcases verifySchnorrProof_err_shape h with h1 | h1 | h1 | h1
    · right; left; exact h1
    · right; right; left; exact h1
    · right; right; right; left; exact h1
    · right; right; right; right; exact h1

/-- On any session whose stored `B` (if present) is a non-infinity point,
`deriveSharedKey` can never produce the point-at-infinity error. -/
theorem deriveSharedKey_no_infinity_err {hash : List ℕ → List ℕ} {sess : Session}
    (h : goodB sess) :
    (deriveSharedKey hash sess).1
      ≠ .error (.verificationError "Invalid point: B is the point at infinity") := by
  unfold deriveSharedKey
  split
  · intro hc; simp at hc
  split
  · next hB hG1 hG2 hG3 hG4 hx2 hx2s hzkb hbob =>
    rename_i b g1 g2 g3 g4 x2b x2sb zkb bobId
    split
    · next hb0 =>
      exfalso
      have hbound := h b hB
      omega
    · split
      · next heq2 =>
        intro hc
        injection hc with h1
        subst h1
        rcases verifyPeerProof_err_shape heq2 with h1 | h1 | h1 | ⟨m, h1⟩ | ⟨m, h1⟩ <;>
          simp at h1
      · intro hc
        simp at hc
      · split
        · intro hc
          simp at hc
        · intro hc
          simp at hc
  · intro hc
    simp at hc

/-! ### The round2 partial-mutation fact (C9) -/

theorem round2_verificationError_post {hash : List ℕ → List ℕ} {v : ℕ}
    {r1b : Round1Result} {s bobId : List ℕ} {sess : Session} {m : String}
    (he : (round2 hash v r1b s bobId sess).1 = .error (.verificationError m)) :
    (round2 hash v r1b s bobId sess).2.bobUserId = some bobId ∧
      (round2 hash v r1b s bobId sess).2.state = sess.state := by
  revert he
  unfold round2
  repeat' split
  all_goals intro he
  all_goals first | exact ⟨rfl, rfl⟩ | simp at he

/-! ### Success-path lemmas for each operation -/

instance : Fact (1 < n) := ⟨by decide⟩

theorem bytesToNumberBE_roundtrip32 {x : ℕ} (hx : x < n) :
    bytesToNumberBE (numberToBytesBE x 32) = x := by
  rw [bytesToNumberBE_numberToBytesBE]
  exact Nat.mod_eq_of_lt (lt_trans hx n_lt_byte32)

theorem pmul_Gpt {x : ℕ} (hx : x < n) : pmul Gpt x = x := by
  unfold pmul Gpt
  rw [one_mul, Nat.mod_eq_of_lt hx]

theorem natCast_Gpt : ((Gpt : ℕ) : ZMod n) = 1 := Nat.cast_one

theorem natCast_Gpt_ne_zero : ((Gpt : ℕ) : ZMod n) ≠ 0 := by
  rw [natCast_Gpt]
  exact one_ne_zero

theorem mkJPake_ok {userId : List ℕ} {otherInfo : List (List ℕ)} (h : userId ≠ []) :
    mkJPake userId otherInfo = .ok
      { userId := userId, otherInfo := otherInfo, state := .INITIAL, x1 := none,
        x2 := none, G1 := none, G2 := none, G3 := none, G4 := none, B := none,
        x2s := none, ZKPx2sBob := none, bobUserId := none } := by
  unfold mkJPake
  rw [if_neg h]

theorem round1_ok {hash : List ℕ → List ℕ} {sess : Session} {x1v x2v v1 v2 : ℕ}
    (hst : sess.state = .INITIAL)
    (hu : sess.userId.length ≤ 255) (hoi : ∀ i ∈ sess.otherInfo, i.length ≤ 255)
    (hx1p : 0 < x1v) (hx1n : x1v < n) (hx2p : 0 < x2v) (hx2n : x2v < n)
    (hv1 : 0 < v1) (hv1n : v1 < n) (hv2 : 0 < v2) (hv2n : v2 < n) :
    round1 hash x1v x2v v1 v2 sess = (.ok {
        G1 := pointToBytes x1v, G2 := pointToBytes x2v,
        ZKPx1 := schnorrProofBytes v1 (schnorrR v1 x1v
          (challengeVal hash sess.userId x1v v1 sess.otherInfo)),
        ZKPx2 := schnorrProofBytes v2 (schnorrR v2 x2v
          (challengeVal hash sess.userId x2v v2 sess.otherInfo)) },
      { sess with x1 := some (numberToBytesBE x1v 32), x2 := some (numberToBytesBE x2v 32),
                  G1 := some x1v, G2 := some x2v, state := .ROUND1FINISHED }) := by
  have hrt1 : bytesToNumberBE (numberToBytesBE x1v 32) = x1v := bytesToNumberBE_roundtrip32 hx1n
  have hrt2 : bytesToNumberBE (numberToBytesBE x2v 32) = x2v := bytesToNumberBE_roundtrip32 hx2n
  have hgx1 : pmul Gpt (bytesToNumberBE (numberToBytesBE x1v 32)) ≠ 0 := by
    rw [hrt1, pmul_Gpt hx1n]
    exact Nat.pos_iff_ne_zero.mp hx1p
  have hgx2 : pmul Gpt (bytesToNumberBE (numberToBytesBE x2v 32)) ≠ 0 := by
    rw [hrt2, pmul_Gpt hx2n]
    exact Nat.pos_iff_ne_zero.mp hx2p
  have hp1 := generateSchnorrProof_ok hash sess.userId (numberToBytesBE x1v 32)
    sess.otherInfo Gpt (pmul Gpt (bytesToNumberBE (numberToBytesBE x1v 32))) v1 hu hoi
    natCast_Gpt_ne_zero (natCast_ne_zero_of_lt hv1 hv1n)
    (by rw [natCast_pmul]) hgx1
  have hp2 := generateSchnorrProof_ok hash sess.userId (numberToBytesBE x2v 32)
    sess.otherInfo Gpt (pmul Gpt (bytesToNumberBE (numberToBytesBE x2v 32))) v2 hu hoi
    natCast_Gpt_ne_zero (natCast_ne_zero_of_lt hv2 hv2n)
    (by rw [natCast_pmul]) hgx2
  unfold round1
  rw [if_neg (by simp [hst]), hp1, hp2]
  rw [hrt1, hrt2, pmul_Gpt hx1n, pmul_Gpt hx2n, pmul_Gpt hv1n, pmul_Gpt hv2n]

theorem round2_ok {hash : List ℕ → List ℕ} {v : ℕ} {r1b : Round1Result}
    {sBytes bobId : List ℕ} {sess : Session} {x2v g1v bg1 bg2 : ℕ}
    (hst : sess.state = .ROUND1FINISHED) (hbob : bobId ≠ [])
    (hx2 : sess.x2 = some (numberToBytesBE x2v 32)) (hx2p : 0 < x2v) (hx2n : x2v < n)
    (hG1 : sess.G1 = some g1v)
    (hdG1 : pointFromBytes r1b.G1 = some bg1)
    (hdG2 : pointFromBytes r1b.G2 = some bg2)
    (hs : ¬ bytesToNumberBE sBytes % n = 0)
    (hne : ¬ sess.userId = bobId)
    (hzkp1 : verifySchnorrProof hash bobId bg1 r1b.ZKPx1 Gpt sess.otherInfo = .ok true)
    (hu : sess.userId.length ≤ 255) (hoi : ∀ i ∈ sess.otherInfo, i.length ≤ 255)
    (hv : 0 < v) (hvn : v < n)
    (hgen0 : ¬ padd (padd g1v bg1) bg2 = 0) :
    round2 hash v r1b sBytes bobId sess = (.ok {
        A := pointToBytes (pmul (padd (padd g1v bg1) bg2) (x2v * bytesToNumberBE sBytes % n)),
        ZKPx2s := schnorrProofBytes (pmul (padd (padd g1v bg1) bg2) v)
          (schnorrR v (x2v * bytesToNumberBE sBytes % n)
            (challengeVal hash sess.userId
              (pmul (padd (padd g1v bg1) bg2) (x2v * bytesToNumberBE sBytes % n))
              (pmul (padd (padd g1v bg1) bg2) v) sess.otherInfo)) },
      { sess with bobUserId := some bobId, G3 := some bg1, G4 := some bg2,
                  x2s := some (numberToBytesBE (x2v * bytesToNumberBE sBytes % n) 32),
                  state := .ROUND2FINISHED }) := by
  have hrt2 : bytesToNumberBE (numberToBytesBE x2v 32) = x2v := bytesToNumberBE_roundtrip32 hx2n
  have hx2s : x2sBytes (numberToBytesBE x2v 32) sBytes
      = numberToBytesBE (x2v * bytesToNumberBE sBytes % n) 32 := by
    unfold x2sBytes
    rw [hrt2]
  have hrtx2s : bytesToNumberBE (numberToBytesBE (x2v * bytesToNumberBE sBytes % n) 32)
      = x2v * bytesToNumberBE sBytes % n :=
    bytesToNumberBE_roundtrip32 (Nat.mod_lt _ n_pos)
  have hglt : padd (padd g1v bg1) bg2 < n := padd_lt _ _
  have hgcast : ((padd (padd g1v bg1) bg2 : ℕ) : ZMod n) ≠ 0 :=
    natCast_ne_zero_of_lt (Nat.pos_of_ne_zero hgen0) hglt
  have hpeer : verifyPeerProof hash
      { sess with x2 := some (numberToBytesBE x2v 32), G1 := some g1v,
                  bobUserId := some bobId } bobId bg1 r1b.ZKPx1 Gpt = .ok true := by
    unfold verifyPeerProof
    rw [if_neg hne, if_neg hbob]
    exact hzkp1
  have hscast : (bytesToNumberBE sBytes : ZMod n) ≠ 0 := by
    intro h
    rw [ZMod.natCast_zmod_eq_zero_iff_dvd] at h
    exact hs (Nat.dvd_iff_mod_eq_zero.mp h)
  have hbe2s : bytesToNumberBE (x2sBytes (numberToBytesBE x2v 32) sBytes)
      = x2v * bytesToNumberBE sBytes % n := by
    rw [hx2s]
    exact hrtx2s
  have hgxA : pmul (padd (padd g1v bg1) bg2)
      (bytesToNumberBE (x2sBytes (numberToBytesBE x2v 32) sBytes)) ≠ 0 := by
    apply Nat.pos_iff_ne_zero.mp
    apply pos_of_natCast_ne_zero
    rw [natCast_pmul, hbe2s, ZMod.natCast_mod, Nat.cast_mul]
    exact mul_ne_zero hgcast
      (mul_ne_zero (natCast_ne_zero_of_lt hx2p hx2n) hscast)
  have hp := generateSchnorrProof_ok hash sess.userId (x2sBytes (numberToBytesBE x2v 32) sBytes)
    sess.otherInfo (padd (padd g1v bg1) bg2)
    (pmul (padd (padd g1v bg1) bg2) (bytesToNumberBE (x2sBytes (numberToBytesBE x2v 32) sBytes)))
    v hu hoi hgcast (natCast_ne_zero_of_lt hv hvn)
    (by rw [natCast_pmul]) hgxA
  unfold round2
  rw [if_neg (by simp [hst]), if_neg (by simp [hbob]), hx2, hG1]
  simp only []
  rw [hdG1, hdG2]
  simp only []
  rw [if_neg hs, hpeer]
  simp only []
  rw [hp]
  simp only []
  rw [if_neg hgen0]
  rw [hx2s, hrtx2s]

theorem setRound2_ok {r2b : Round2Result} {sess : Session} {b : ℕ}
    (hst : sess.state = .ROUND2FINISHED)
    (hdec : pointFromBytes r2b.A = some b) :
    setRound2ResultFromBob r2b sess = (.ok (),
      { sess with B := some b, ZKPx2sBob := some r2b.ZKPx2s,
                  state := .ROUND2RESULTSRECEIVED }) := by
  unfold setRound2ResultFromBob
  rw [if_neg (by simp [hst]), hdec]

theorem deriveSharedKey_ok {hash : List ℕ → List ℕ} {sess : Session}
    {b g1v g2v g3v g4v x2v x2sv : ℕ} {zkb bobId : List ℕ}
    (hst : sess.state = .ROUND2RESULTSRECEIVED)
    (hB : sess.B = some b) (hG1 : sess.G1 = some g1v) (hG2 : sess.G2 = some g2v)
    (hG3 : sess.G3 = some g3v) (hG4 : sess.G4 = some g4v)
    (hx2 : sess.x2 = some (numberToBytesBE x2v 32)) (hx2n : x2v < n)
    (hx2s : sess.x2s = some (numberToBytesBE x2sv 32)) (hx2sn : x2sv < n)
    (hzk : sess.ZKPx2sBob = some zkb) (hbob : sess.bobUserId = some bobId)
    (hb0 : ¬ b = 0)
    (hne : ¬ sess.userId = bobId) (hbne : bobId ≠ [])
    (hver : verifySchnorrProof hash bobId b zkb (padd (padd g1v g3v) g2v)
      sess.otherInfo = .ok true)
    (hKa0 : ¬ pmul (psub b (pmul g4v x2sv)) x2v = 0) :
    deriveSharedKey hash sess = (.ok (hash (pointToBytes
        (pmul (psub b (pmul g4v x2sv)) x2v))),
      { sess with state := .KEYDERIVED }) := by
  have hrt2 : bytesToNumberBE (numberToBytesBE x2v 32) = x2v := bytesToNumberBE_roundtrip32 hx2n
  have hrts : bytesToNumberBE (numberToBytesBE x2sv 32) = x2sv := bytesToNumberBE_roundtrip32 hx2sn
  have hpeer : verifyPeerProof hash sess bobId b zkb (padd (padd g1v g3v) g2v) = .ok true := by
    unfold verifyPeerProof
    rw [if_neg hne, if_neg hbne]
    exact hver
  unfold deriveSharedKey
  rw [if_neg (by simp [hst]), hB, hG1, hG2, hG3, hG4, hx2, hx2s, hzk, hbob]
  simp only []
  rw [if_neg hb0, hpeer]
  simp only []
  rw [hrt2, hrts, if_neg hKa0]

/-! ### The honest two-round protocol run (C1) -/

/-- One complete honest exchange through the public interface: both parties
are constructed, run `round1`, exchange the results, run `round2` on the
peer's round-1 output with the same `s`, exchange the round-2 results via
`setRound2ResultFromBob`, and both derive their keys.  The ten scalars are
the random draws of the two sessions. -/
def honestRun (hash : List ℕ → List ℕ) (uA uB : List ℕ) (oi : List (List ℕ))
    (x1 x2 x3 x4 vA1 vA2 vA3 vB1 vB2 vB3 : ℕ) (sBytes : List ℕ) :
    Except JPakeErr (List ℕ × List ℕ) :=
  match mkJPake uA oi, mkJPake uB oi with
  | .ok sA0, .ok sB0 =>
    (match round1 hash x1 x2 vA1 vA2 sA0, round1 hash x3 x4 vB1 vB2 sB0 with
     | (.ok r1A, sA1), (.ok r1B, sB1) =>
       (match round2 hash vA3 r1B sBytes uB sA1, round2 hash vB3 r1A sBytes uA sB1 with
        | (.ok r2A, sA2), (.ok r2B, sB2) =>
          (match setRound2ResultFromBob r2B sA2, setRound2ResultFromBob r2A sB2 with
           | (.ok _, sA3), (.ok _, sB3) =>
             (match (deriveSharedKey hash sA3).1, (deriveSharedKey hash sB3).1 with
              | .ok kA, .ok kB => .ok (kA, kB)
              | .error e, _ => .error e
              | _, .error e => .error e)
           | (.error e, _), _ => .error e
           | _, (.error e, _) => .error e)
        | (.error e, _), _ => .error e
        | _, (.error e, _) => .error e)
     | (.error e, _), _ => .error e
     | _, (.error e, _) => .error e)
  | .error e, _ => .error e
  | _, .error e => .error e

theorem verify_round1_proof (hash : List ℕ → List ℕ) (u : List ℕ)
    (oi : List (List ℕ)) (xv v : ℕ)
    (hu : u.length ≤ 255) (hoi : ∀ i ∈ oi, i.length ≤ 255)
    (hx0 : 0 < xv) (hx : xv < n) (hv0 : 0 < v) (hvn : v < n) :
    verifySchnorrProof hash u xv
      (schnorrProofBytes v (schnorrR v xv (challengeVal hash u xv v oi))) Gpt oi
      = .ok true := by
  have h := verifySchnorrProof_generated hash u (numberToBytesBE xv 32) oi Gpt xv v hu hoi
    natCast_Gpt_ne_zero (natCast_ne_zero_of_lt hv0 hvn)
    (by rw [bytesToNumberBE_roundtrip32 hx, natCast_Gpt, one_mul])
    (Nat.pos_iff_ne_zero.mp hx0)
  rwa [pmul_Gpt hvn, bytesToNumberBE_roundtrip32 hx] at h

theorem verify_round2_proof (hash : List ℕ → List ℕ) (u : List ℕ)
    (oi : List (List ℕ)) (g m v : ℕ)
    (hu : u.length ≤ 255) (hoi : ∀ i ∈ oi, i.length ≤ 255)
    (hg0 : ¬ g = 0) (hgn : g < n) (hv0 : 0 < v) (hvn : v < n) (hm : m < n)
    (hmcast : (m : ZMod n) ≠ 0) :
    verifySchnorrProof hash u (pmul g m)
      (schnorrProofBytes (pmul g v)
        (schnorrR v m (challengeVal hash u (pmul g m) (pmul g v) oi))) g oi
      = .ok true := by
  have hgxA : pmul g m ≠ 0 := by
    apply Nat.pos_iff_ne_zero.mp
    apply pos_of_natCast_ne_zero
    rw [natCast_pmul]
    exact mul_ne_zero (natCast_ne_zero_of_lt (Nat.pos_of_ne_zero hg0) hgn) hmcast
  have h := verifySchnorrProof_generated hash u (numberToBytesBE m 32) oi g (pmul g m) v hu hoi
    (natCast_ne_zero_of_lt (Nat.pos_of_ne_zero hg0) hgn) (natCast_ne_zero_of_lt hv0 hvn)
    (by rw [bytesToNumberBE_roundtrip32 hm, natCast_pmul]) hgxA
  rwa [bytesToNumberBE_roundtrip32 hm] at h

theorem honestRun_ok (hash : List ℕ → List ℕ)
    (uA uB : List ℕ) (oi : List (List ℕ)) (sBytes : List ℕ)
    (x1 x2 x3 x4 vA1 vA2 vA3 vB1 vB2 vB3 : ℕ)
    (huA : uA ≠ []) (huB : uB ≠ []) (hABne : ¬ uA = uB)
    (huAl : uA.length ≤ 255) (huBl : uB.length ≤ 255)
    (hoi : ∀ i ∈ oi, i.length ≤ 255)
    (hs : ¬ bytesToNumberBE sBytes % n = 0)
    (hx1 : 0 < x1) (hx1n : x1 < n) (hx2 : 0 < x2) (hx2n : x2 < n)
    (hx3 : 0 < x3) (hx3n : x3 < n) (hx4 : 0 < x4) (hx4n : x4 < n)
    (hvA1 : 0 < vA1) (hvA1n : vA1 < n) (hvA2 : 0 < vA2) (hvA2n : vA2 < n)
    (hvA3 : 0 < vA3) (hvA3n : vA3 < n)
    (hvB1 : 0 < vB1) (hvB1n : vB1 < n) (hvB2 : 0 < vB2) (hvB2n : vB2 < n)
    (hvB3 : 0 < vB3) (hvB3n : vB3 < n)
    (hgenA : ¬ (x1 + x3 + x4) % n = 0) (hgenB : ¬ (x3 + x1 + x2) % n = 0)
    (hgenK : ¬ (x1 + x3) % n = 0) :
    honestRun hash uA uB oi x1 x2 x3 x4 vA1 vA2 vA3 vB1 vB2 vB3 sBytes
      = .ok (hash (pointToBytes (pmul (psub (pmul (padd (padd x3 x1) x2) (x4 * bytesToNumberBE sBytes % n)) (pmul x4 (x2 * bytesToNumberBE sBytes % n))) x2)),
             hash (pointToBytes (pmul (psub (pmul (padd (padd x1 x3) x4) (x2 * bytesToNumberBE sBytes % n)) (pmul x2 (x4 * bytesToNumberBE sBytes % n))) x4))) := by
  have hBAne : ¬ uB = uA := fun h => hABne h.symm
  have hGAeq : padd (padd x1 x3) x4 = (x1 + x3 + x4) % n := by
    unfold padd
    rw [Nat.mod_add_mod]
  have hGBeq : padd (padd x3 x1) x2 = (x3 + x1 + x2) % n := by
    unfold padd
    rw [Nat.mod_add_mod]
  have hGA0 : ¬ padd (padd x1 x3) x4 = 0 := by rw [hGAeq]; exact hgenA
  have hGB0 : ¬ padd (padd x3 x1) x2 = 0 := by rw [hGBeq]; exact hgenB
  have hM2lt : x2 * bytesToNumberBE sBytes % n < n := Nat.mod_lt _ n_pos
  have hM4lt : x4 * bytesToNumberBE sBytes % n < n := Nat.mod_lt _ n_pos
  have hscast : (bytesToNumberBE sBytes : ZMod n) ≠ 0 := by
    intro h
    rw [ZMod.natCast_zmod_eq_zero_iff_dvd] at h
    exact hs (Nat.dvd_iff_mod_eq_zero.mp h)
  have hM2cast : ((x2 * bytesToNumberBE sBytes % n : ℕ) : ZMod n) = (x2 : ZMod n) * (bytesToNumberBE sBytes : ZMod n) := by
    rw [ZMod.natCast_mod, Nat.cast_mul]
  have hM4cast : ((x4 * bytesToNumberBE sBytes % n : ℕ) : ZMod n) = (x4 : ZMod n) * (bytesToNumberBE sBytes : ZMod n) := by
    rw [ZMod.natCast_mod, Nat.cast_mul]
  have hM2cast0 : ((x2 * bytesToNumberBE sBytes % n : ℕ) : ZMod n) ≠ 0 := by
    rw [hM2cast]
    exact mul_ne_zero (natCast_ne_zero_of_lt hx2 hx2n) hscast
  have hM4cast0 : ((x4 * bytesToNumberBE sBytes % n : ℕ) : ZMod n) ≠ 0 := by
    rw [hM4cast]
    exact mul_ne_zero (natCast_ne_zero_of_lt hx4 hx4n) hscast
  have hBA0 : 0 < pmul (padd (padd x3 x1) x2) (x4 * bytesToNumberBE sBytes % n) := by
    apply pos_of_natCast_ne_zero
    rw [natCast_pmul]
    exact mul_ne_zero
      (natCast_ne_zero_of_lt (Nat.pos_of_ne_zero hGB0) (padd_lt _ _)) hM4cast0
  have hBB0 : 0 < pmul (padd (padd x1 x3) x4) (x2 * bytesToNumberBE sBytes % n) := by
    apply pos_of_natCast_ne_zero
    rw [natCast_pmul]
    exact mul_ne_zero
      (natCast_ne_zero_of_lt (Nat.pos_of_ne_zero hGA0) (padd_lt _ _)) hM2cast0
  have h13cast : ((x1 + x3 : ℕ) : ZMod n) ≠ 0 := by
    intro h
    rw [ZMod.natCast_zmod_eq_zero_iff_dvd] at h
    exact hgenK (Nat.dvd_iff_mod_eq_zero.mp h)
  have hKaA : ¬ pmul (psub (pmul (padd (padd x3 x1) x2) (x4 * bytesToNumberBE sBytes % n)) (pmul x4 (x2 * bytesToNumberBE sBytes % n))) x2 = 0 := by
    apply Nat.pos_iff_ne_zero.mp
    apply pos_of_natCast_ne_zero
    have hcast : ((pmul (psub (pmul (padd (padd x3 x1) x2) (x4 * bytesToNumberBE sBytes % n)) (pmul x4 (x2 * bytesToNumberBE sBytes % n))) x2 : ℕ) : ZMod n)
        = ((x1 + x3 : ℕ) : ZMod n) * x4 * (bytesToNumberBE sBytes : ZMod n) * x2 := by
      simp only [natCast_pmul, natCast_psub, natCast_padd, ZMod.natCast_mod,
        Nat.cast_mul, Nat.cast_add]
      ring
    rw [hcast]
    exact mul_ne_zero (mul_ne_zero (mul_ne_zero h13cast
      (natCast_ne_zero_of_lt hx4 hx4n)) hscast) (natCast_ne_zero_of_lt hx2 hx2n)
  have hKaB : ¬ pmul (psub (pmul (padd (padd x1 x3) x4) (x2 * bytesToNumberBE sBytes % n)) (pmul x2 (x4 * bytesToNumberBE sBytes % n))) x4 = 0 := by
    apply Nat.pos_iff_ne_zero.mp
    apply pos_of_natCast_ne_zero
    have hcast : ((pmul (psub (pmul (padd (padd x1 x3) x4) (x2 * bytesToNumberBE sBytes % n)) (pmul x2 (x4 * bytesToNumberBE sBytes % n))) x4 : ℕ) : ZMod n)
        = ((x1 + x3 : ℕ) : ZMod n) * x2 * (bytesToNumberBE sBytes : ZMod n) * x4 := by
      simp only [natCast_pmul, natCast_psub, natCast_padd, ZMod.natCast_mod,
        Nat.cast_mul, Nat.cast_add]
      ring
    rw [hcast]
    exact mul_ne_zero (mul_ne_zero (mul_ne_zero h13cast
      (natCast_ne_zero_of_lt hx2 hx2n)) hscast) (natCast_ne_zero_of_lt hx4 hx4n)
  have hA1 := @round1_ok hash (⟨uA, oi, .INITIAL, none, none, none, none, none, none, none, none, none, none⟩ : Session) x1 x2 vA1 vA2
    rfl huAl hoi hx1 hx1n hx2 hx2n hvA1 hvA1n hvA2 hvA2n
  have hB1 := @round1_ok hash (⟨uB, oi, .INITIAL, none, none, none, none, none, none, none, none, none, none⟩ : Session) x3 x4 vB1 vB2
    rfl huBl hoi hx3 hx3n hx4 hx4n hvB1 hvB1n hvB2 hvB2n
  simp only [] at hA1 hB1
  have hA2 := @round2_ok hash vA3 (⟨pointToBytes x3, pointToBytes x4, schnorrProofBytes vB1 (schnorrR vB1 x3 (challengeVal hash uB x3 vB1 oi)), schnorrProofBytes vB2 (schnorrR vB2 x4 (challengeVal hash uB x4 vB2 oi))⟩ : Round1Result)
    sBytes uB (⟨uA, oi, .ROUND1FINISHED, some (numberToBytesBE x1 32), some (numberToBytesBE x2 32), some x1, some x2, none, none, none, none, none, none⟩ : Session) x2 x1 x3 x4
    rfl huB rfl hx2 hx2n rfl (pointFromBytes_pointToBytes hx3 hx3n)
    (pointFromBytes_pointToBytes hx4 hx4n) hs hABne
    (verify_round1_proof hash uB oi x3 vB1 huBl hoi hx3 hx3n hvB1 hvB1n)
    huAl hoi hvA3 hvA3n hGA0
  have hB2 := @round2_ok hash vB3 (⟨pointToBytes x1, pointToBytes x2, schnorrProofBytes vA1 (schnorrR vA1 x1 (challengeVal hash uA x1 vA1 oi)), schnorrProofBytes vA2 (schnorrR vA2 x2 (challengeVal hash uA x2 vA2 oi))⟩ : Round1Result)
    sBytes uA (⟨uB, oi, .ROUND1FINISHED, some (numberToBytesBE x3 32), some (numberToBytesBE x4 32), some x3, some x4, none, none, none, none, none, none⟩ : Session) x4 x3 x1 x2
    rfl huA rfl hx4 hx4n rfl (pointFromBytes_pointToBytes hx1 hx1n)
    (pointFromBytes_pointToBytes hx2 hx2n) hs hBAne
    (verify_round1_proof hash uA oi x1 vA1 huAl hoi hx1 hx1n hvA1 hvA1n)
    huBl hoi hvB3 hvB3n hGB0
  simp only [] at hA2 hB2
  have hA3 := @setRound2_ok (⟨pointToBytes (pmul (padd (padd x3 x1) x2) (x4 * bytesToNumberBE sBytes % n)), schnorrProofBytes (pmul (padd (padd x3 x1) x2) vB3) (schnorrR vB3 (x4 * bytesToNumberBE sBytes % n) (challengeVal hash uB (pmul (padd (padd x3 x1) x2) (x4 * bytesToNumberBE sBytes % n)) (pmul (padd (padd x3 x1) x2) vB3) oi))⟩ : Round2Result) (⟨uA, oi, .ROUND2FINISHED, some (numberToBytesBE x1 32), some (numberToBytesBE x2 32), some x1, some x2, some x3, some x4, none, some (numberToBytesBE (x2 * bytesToNumberBE sBytes % n) 32), none, some uB⟩ : Session) (pmul (padd (padd x3 x1) x2) (x4 * bytesToNumberBE sBytes % n))
    rfl (pointFromBytes_pointToBytes hBA0 (pmul_lt _ _))
  have hB3 := @setRound2_ok (⟨pointToBytes (pmul (padd (padd x1 x3) x4) (x2 * bytesToNumberBE sBytes % n)), schnorrProofBytes (pmul (padd (padd x1 x3) x4) vA3) (schnorrR vA3 (x2 * bytesToNumberBE sBytes % n) (challengeVal hash uA (pmul (padd (padd x1 x3) x4) (x2 * bytesToNumberBE sBytes % n)) (pmul (padd (padd x1 x3) x4) vA3) oi))⟩ : Round2Result) (⟨uB, oi, .ROUND2FINISHED, some (numberToBytesBE x3 32), some (numberToBytesBE x4 32), some x3, some x4, some x1, some x2, none, some (numberToBytesBE (x4 * bytesToNumberBE sBytes % n) 32), none, some uA⟩ : Session) (pmul (padd (padd x1 x3) x4) (x2 * bytesToNumberBE sBytes % n))
    rfl (pointFromBytes_pointToBytes hBB0 (pmul_lt _ _))
  simp only [] at hA3 hB3
  have hcommA : padd (padd x1 x3) x2 = padd (padd x3 x1) x2 := by
    unfold padd
    rw [Nat.add_comm x1 x3]
  have hcommB : padd (padd x3 x1) x4 = padd (padd x1 x3) x4 := by
    unfold padd
    rw [Nat.add_comm x3 x1]
  have hverA := verify_round2_proof hash uB oi (padd (padd x3 x1) x2) (x4 * bytesToNumberBE sBytes % n) vB3 huBl hoi hGB0
    (padd_lt _ _) hvB3 hvB3n hM4lt hM4cast0
  nth_rewrite 5 [← hcommA] at hverA
  have hverB := verify_round2_proof hash uA oi (padd (padd x1 x3) x4) (x2 * bytesToNumberBE sBytes % n) vA3 huAl hoi hGA0
    (padd_lt _ _) hvA3 hvA3n hM2lt hM2cast0
  nth_rewrite 5 [← hcommB] at hverB
  have hA4 := @deriveSharedKey_ok hash (⟨uA, oi, .ROUND2RESULTSRECEIVED, some (numberToBytesBE x1 32), some (numberToBytesBE x2 32), some x1, some x2, some x3, some x4, some (pmul (padd (padd x3 x1) x2) (x4 * bytesToNumberBE sBytes % n)), some (numberToBytesBE (x2 * bytesToNumberBE sBytes % n) 32), some (schnorrProofBytes (pmul (padd (padd x3 x1) x2) vB3) (schnorrR vB3 (x4 * bytesToNumberBE sBytes % n) (challengeVal hash uB (pmul (padd (padd x3 x1) x2) (x4 * bytesToNumberBE sBytes % n)) (pmul (padd (padd x3 x1) x2) vB3) oi))), some uB⟩ : Session)
    (pmul (padd (padd x3 x1) x2) (x4 * bytesToNumberBE sBytes % n)) x1 x2 x3 x4 x2 (x2 * bytesToNumberBE sBytes % n) (schnorrProofBytes (pmul (padd (padd x3 x1) x2) vB3) (schnorrR vB3 (x4 * bytesToNumberBE sBytes % n) (challengeVal hash uB (pmul (padd (padd x3 x1) x2) (x4 * bytesToNumberBE sBytes % n)) (pmul (padd (padd x3 x1) x2) vB3) oi))) uB
    rfl rfl rfl rfl rfl rfl rfl hx2n rfl hM2lt rfl rfl
    (Nat.pos_iff_ne_zero.mp hBA0) hABne huB hverA hKaA
  have hB4 := @deriveSharedKey_ok hash (⟨uB, oi, .ROUND2RESULTSRECEIVED, some (numberToBytesBE x3 32), some (numberToBytesBE x4 32), some x3, some x4, some x1, some x2, some (pmul (padd (padd x1 x3) x4) (x2 * bytesToNumberBE sBytes % n)), some (numberToBytesBE (x4 * bytesToNumberBE sBytes % n) 32), some (schnorrProofBytes (pmul (padd (padd x1 x3) x4) vA3) (schnorrR vA3 (x2 * bytesToNumberBE sBytes % n) (challengeVal hash uA (pmul (padd (padd x1 x3) x4) (x2 * bytesToNumberBE sBytes % n)) (pmul (padd (padd x1 x3) x4) vA3) oi))), some uA⟩ : Session)
    (pmul (padd (padd x1 x3) x4) (x2 * bytesToNumberBE sBytes % n)) x3 x4 x1 x2 x4 (x4 * bytesToNumberBE sBytes % n) (schnorrProofBytes (pmul (padd (padd x1 x3) x4) vA3) (schnorrR vA3 (x2 * bytesToNumberBE sBytes % n) (challengeVal hash uA (pmul (padd (padd x1 x3) x4) (x2 * bytesToNumberBE sBytes % n)) (pmul (padd (padd x1 x3) x4) vA3) oi))) uA
    rfl rfl rfl rfl rfl rfl rfl hx4n rfl hM4lt rfl rfl
    (Nat.pos_iff_ne_zero.mp hBB0) hBAne huA hverB hKaB
  simp only [] at hA4 hB4
  unfold honestRun
  rw [mkJPake_ok huA, mkJPake_ok huB]
  simp only []
  rw [hA1, hB1]
  simp only []
  rw [hA2, hB2]
  simp only []
  rw [hA3, hB3]
  simp only []
  rw [hA4, hB4]

/-- Helper: a result is a success. -/
def exceptIsOk {ε α : Type} : Except ε α → Bool
  | .ok _ => true
  | .error _ => false

/-- C1 (amended).  For every scalar `s` with `s mod n ≠ 0`, every choice of
ephemeral scalars `x1, x2` (Alice) and `x3, x4` (Bob) in `[1, n)`, any two
distinct nonempty userIds of at most 255 UTF-8 bytes with the same
`otherInfo` (each entry at most 255 bytes), and any proof nonces in `[1, n)`,
provided neither combined generator is the point at infinity
(`(x1+x3+x4) mod n ≠ 0` and `(x3+x1+x2) mod n ≠ 0`) and the shared key
material `Ka = (x1+x3)·x2·x4·s·G` is not the point at infinity
(`(x1+x3) mod n ≠ 0` — otherwise `Ka.toRawBytes(true)` throws the noble
`Error("bad point: ZERO")` and no key is returned): if both sessions run
`round1`, exchange the results, each runs `round2` with the same `s` and the
peer's round-1 result, the round-2 results are exchanged via
`setRound2ResultFromBob`, then the two `deriveSharedKey` calls return
byte-identical 32-byte keys. -/
theorem jpake_honest_run_key_agreement (hash : List ℕ → List ℕ)
    (hashLen : ∀ bs, (hash bs).length = 32)
    (uA uB : List ℕ) (oi : List (List ℕ)) (sBytes : List ℕ)
    (x1 x2 x3 x4 vA1 vA2 vA3 vB1 vB2 vB3 : ℕ)
    (huA : uA ≠ []) (huB : uB ≠ []) (hABne : ¬ uA = uB)
    (huAl : uA.length ≤ 255) (huBl : uB.length ≤ 255)
    (hoi : ∀ i ∈ oi, i.length ≤ 255)
    (hs : ¬ bytesToNumberBE sBytes % n = 0)
    (hx1 : 0 < x1) (hx1n : x1 < n) (hx2 : 0 < x2) (hx2n : x2 < n)
    (hx3 : 0 < x3) (hx3n : x3 < n) (hx4 : 0 < x4) (hx4n : x4 < n)
    (hvA1 : 0 < vA1) (hvA1n : vA1 < n) (hvA2 : 0 < vA2) (hvA2n : vA2 < n)
    (hvA3 : 0 < vA3) (hvA3n : vA3 < n)
    (hvB1 : 0 < vB1) (hvB1n : vB1 < n) (hvB2 : 0 < vB2) (hvB2n : vB2 < n)
    (hvB3 : 0 < vB3) (hvB3n : vB3 < n)
    (hgenA : ¬ (x1 + x3 + x4) % n = 0) (hgenB : ¬ (x3 + x1 + x2) % n = 0)
    (hgenK : ¬ (x1 + x3) % n = 0) :
    ∃ k : List ℕ,
      honestRun hash uA uB oi x1 x2 x3 x4 vA1 vA2 vA3 vB1 vB2 vB3 sBytes = .ok (k, k) ∧
      k.length = 32 := by
  have hkeys := honestRun_ok hash uA uB oi sBytes x1 x2 x3 x4 vA1 vA2 vA3 vB1 vB2 vB3
    huA huB hABne huAl huBl hoi hs hx1 hx1n hx2 hx2n hx3 hx3n hx4 hx4n
    hvA1 hvA1n hvA2 hvA2n hvA3 hvA3n hvB1 hvB1n hvB2 hvB2n hvB3 hvB3n hgenA hgenB hgenK
  have hpoint : pmul (psub (pmul (padd (padd x3 x1) x2) (x4 * bytesToNumberBE sBytes % n)) (pmul x4 (x2 * bytesToNumberBE sBytes % n))) x2
      = pmul (psub (pmul (padd (padd x1 x3) x4) (x2 * bytesToNumberBE sBytes % n)) (pmul x2 (x4 * bytesToNumberBE sBytes % n))) x4 := by
    apply zmod_inj (pmul_lt _ _) (pmul_lt _ _)
    simp only [natCast_pmul, natCast_psub, natCast_padd, ZMod.natCast_mod, Nat.cast_mul]
    ring
  refine ⟨hash (pointToBytes (pmul (psub (pmul (padd (padd x1 x3) x4) (x2 * bytesToNumberBE sBytes % n))
    (pmul x2 (x4 * bytesToNumberBE sBytes % n))) x4)), ?_, hashLen _⟩
  rw [hkeys, hpoint]

/-- C1 witness: a concrete honest run (trivial 32-byte hash, userIds "a" and
"b", `s = 1`, small scalars) satisfies every hypothesis of the amended claim
and hence derives byte-identical 32-byte keys. -/
theorem jpake_honest_run_key_agreement_witness :
    ∃ k : List ℕ,
      honestRun (fun _ => List.replicate 32 0) [97] [98] [] 1 2 3 4 5 6 7 8 9 10 [1]
        = .ok (k, k) ∧ k.length = 32 :=
  jpake_honest_run_key_agreement (fun _ => List.replicate 32 0)
    (fun bs => by simp) [97] [98] [] [1] 1 2 3 4 5 6 7 8 9 10
    (by decide) (by decide) (by decide) (by decide) (by decide)
    (by intro i hi; cases hi) (by decide)
    (by decide) (by decide) (by decide) (by decide) (by decide) (by decide)
    (by decide) (by decide) (by decide) (by decide) (by decide) (by decide)
    (by decide) (by decide) (by decide) (by decide) (by decide) (by decide)
    (by decide) (by decide) (by decide) (by decide) (by decide)

/-- C1 counterexample: with `x1 = x3 = 1`, `x4 = n - 2` (all in `[1, n)`,
`s = 1`, distinct nonempty userIds), Alice's combined generator
`G1 + G3 + G4` is the point at infinity, her `round2` throws, and the run
produces no keys at all — refuting the claim as frozen, which quantifies
over all ephemeral scalars in `[1, n)`. -/
theorem jpake_C1_counterexample :
    exceptIsOk (honestRun (fun _ => [1]) [97] [98] [] 1 1 1 (n - 2) 1 1 1 1 1 1 [1])
        = false ∧
      0 < n - 2 ∧ n - 2 < n ∧ bytesToNumberBE [1] % n ≠ 0 := by
  decide

instance {ε α : Type} [DecidableEq ε] [DecidableEq α] : DecidableEq (Except ε α) :=
  fun x y =>
  match x, y with
  | .ok a, .ok b =>
    decidable_of_iff (a = b)
      (by constructor
          · intro h
            rw [h]
          · intro h
            cases h
            rfl)
  | .ok _, .error _ => .isFalse (by intro h; cases h)
  | .error _, .ok _ => .isFalse (by intro h; cases h)
  | .error e, .error f =>
    decidable_of_iff (e = f)
      (by constructor
          · intro h
            rw [h]
          · intro h
            cases h
            rfl)

/-! ### Serialized-proof slice facts (reused) -/

theorem schnorrProofBytes_length (V R : ℕ) : (schnorrProofBytes V R).length = 67 := by
  simp [schnorrProofBytes, pointToBytes_length, numberToBytesBE_length]

theorem schnorrProofBytes_getD0 (V R : ℕ) : (schnorrProofBytes V R).getD 0 0 = 33 := rfl

theorem schnorrProofBytes_getD34 (V R : ℕ) : (schnorrProofBytes V R).getD 34 0 = 32 := by
  have hform : schnorrProofBytes V R
      = ([33] ++ pointToBytes V) ++ (32 :: numberToBytesBE R 32) := by
    simp [schnorrProofBytes]
  rw [hform, List.getD_append_right _ _ _ _ (by simp [pointToBytes_length])]
  simp [pointToBytes_length]

theorem schnorrProofBytes_sliceV (V R : ℕ) :
    ((schnorrProofBytes V R).drop 1).take 33 = pointToBytes V := by
  have hform : schnorrProofBytes V R
      = [33] ++ (pointToBytes V ++ (32 :: numberToBytesBE R 32)) := by
    simp [schnorrProofBytes]
  rw [hform, show (1:ℕ) = ([33] : List ℕ).length from rfl, List.drop_left,
    ← pointToBytes_length V, List.take_left]

theorem schnorrProofBytes_sliceR (V R : ℕ) :
    ((schnorrProofBytes V R).drop 35).take 32 = numberToBytesBE R 32 := by
  have hform : schnorrProofBytes V R
      = (33 :: (pointToBytes V ++ [32])) ++ numberToBytesBE R 32 := by
    simp [schnorrProofBytes]
  have h35 : ((33 : ℕ) :: (pointToBytes V ++ [32])).length = 35 := by
    simp [pointToBytes_length]
  rw [hform, ← h35, List.drop_left]
  exact List.take_of_length_le (by simp [numberToBytesBE_length])

/-! ### Degenerate generator: the proof over the point at infinity never
self-verifies, because compressed SEC1 cannot carry its `V` -/

theorem pointFromBytes_zero : pointFromBytes (pointToBytes 0) = none := by decide

theorem verifySchnorrProof_V_zero (hash : List ℕ → List ℕ) (u : List ℕ)
    (gx g R : ℕ) (oi : List (List ℕ)) :
    verifySchnorrProof hash u gx (schnorrProofBytes 0 R) g oi = .ok false := by
  unfold verifySchnorrProof
  rw [schnorrProofBytes_length, if_neg (by norm_num), schnorrProofBytes_getD0,
    show (1:ℕ) + 33 = 34 from rfl, schnorrProofBytes_getD34, if_neg (by norm_num),
    schnorrProofBytes_sliceV, pointFromBytes_zero]

theorem pmul_zero_left (v : ℕ) : pmul 0 v = 0 := by
  unfold pmul
  simp

theorem generateSchnorrChallenge_zero_gx (hash : List ℕ → List ℕ) (u : List ℕ)
    (gr : ℕ) (oi : List (List ℕ)) :
    generateSchnorrChallenge hash u 0 gr oi = .error (.jsError "bad point: ZERO") := by
  unfold generateSchnorrChallenge
  rw [if_pos rfl]

theorem generateSchnorrProof_zero_g (hash : List ℕ → List ℕ) (v : ℕ) (u x : List ℕ)
    (oi : List (List ℕ)) :
    generateSchnorrProof hash v u x 0 0 oi = .error (.jsError "bad point: ZERO") := by
  unfold generateSchnorrProof
  rw [generateSchnorrChallenge_zero_gx]

/-- C8 (amended).  In `round2`, whenever the combined generator `G1 + G3 + G4`
is the point at infinity (and the checks preceding the proof generation
pass), the call fails — but not with the claimed `VerificationError`: the
point `A = generator·x2s` is then also the point at infinity, and the first
thing the Schnorr challenge computation does is `A.toRawBytes(true)`, so the
noble library throws its plain `Error("bad point: ZERO")` there, before any
serialization or self-verification and before the source's explicit
point-at-infinity check on the generator, which is unreachable. -/
theorem jpake_round2_infinity_generator {hash : List ℕ → List ℕ} {v : ℕ}
    {r1b : Round1Result} {sBytes bobId : List ℕ} {sess : Session}
    {x2v g1v bg1 bg2 : ℕ}
    (hst : sess.state = .ROUND1FINISHED) (hbob : bobId ≠ [])
    (hx2 : sess.x2 = some (numberToBytesBE x2v 32))
    (hG1 : sess.G1 = some g1v)
    (hdG1 : pointFromBytes r1b.G1 = some bg1)
    (hdG2 : pointFromBytes r1b.G2 = some bg2)
    (hs : ¬ bytesToNumberBE sBytes % n = 0)
    (hne : ¬ sess.userId = bobId)
    (hzkp1 : verifySchnorrProof hash bobId bg1 r1b.ZKPx1 Gpt sess.otherInfo = .ok true)
    (hgen : padd (padd g1v bg1) bg2 = 0) :
    (round2 hash v r1b sBytes bobId sess).1
      = .error (.jsError "bad point: ZERO") := by
  have hpeer : verifyPeerProof hash
      { sess with x2 := some (numberToBytesBE x2v 32), G1 := some g1v,
                  bobUserId := some bobId } bobId bg1 r1b.ZKPx1 Gpt = .ok true := by
    unfold verifyPeerProof
    rw [if_neg hne, if_neg hbob]
    exact hzkp1
  unfold round2
  rw [if_neg (by simp [hst]), if_neg (by simp [hbob]), hx2, hG1]
  simp only []
  rw [hdG1, hdG2]
  simp only []
  rw [if_neg hs, hpeer]
  simp only []
  rw [hgen, pmul_zero_left,
    generateSchnorrProof_zero_g hash v sess.userId
      (x2sBytes (numberToBytesBE x2v 32) sBytes) sess.otherInfo]

/-- C8 counterexample: with Alice holding `x1 = 1` and Bob's round-1 points
decoding to `x3 = 1`, `x4 = n - 2`, the combined generator is the point at
infinity, yet the concrete `round2` call fails with the noble library's
plain `Error("bad point: ZERO")` — raised while serializing the
infinity-valued `A` for the Schnorr challenge — and not with the claimed
`VerificationError("Invalid point: The new generator is the point at
infinity")`. -/
theorem jpake_C8_counterexample :
    (match (round1 (fun _ => [1]) 1 (n - 2) 1 1
        (⟨[98], [], .INITIAL, none, none, none, none, none, none, none, none, none,
          none⟩ : Session)).1 with
      | .ok r1B =>
        (match (round2 (fun _ => [1]) 1 r1B [1] [98]
            (round1 (fun _ => [1]) 1 1 1 1
              (⟨[97], [], .INITIAL, none, none, none, none, none, none, none, none,
                none, none⟩ : Session)).2).1 with
          | .error (.jsError m) => decide (m = "bad point: ZERO")
          | _ => false)
      | .error _ => false) = true ∧
    padd (padd 1 1) (n - 2) = 0 := by
  constructor
  · decide
  · decide

/-- C2 (code bug).  `round2` does not verify the peer's `ZKPx2`: with Bob's
genuine round-1 output except that `ZKPx2` is replaced by 67 zero bytes,
Alice's `round2` still succeeds, although verifying that garbage proof
against Bob's `G2` (the decoded value 4 here) with generator `G` fails with
a `VerificationError`.  The code's own comment and RFC 8236 require both
`ZKPx1` and `ZKPx2` to be checked. -/
theorem jpake_C2_round2_skips_ZKPx2 :
    (match (round1 (fun _ => [1]) 3 4 5 6
        (⟨[98], [], .INITIAL, none, none, none, none, none, none, none, none, none,
          none⟩ : Session)).1 with
      | .ok r1B =>
        exceptIsOk (round2 (fun _ => [1]) 9
            { r1B with ZKPx2 := List.replicate 67 0 } [1] [98]
            (round1 (fun _ => [1]) 1 2 7 8
              (⟨[97], [], .INITIAL, none, none, none, none, none, none, none, none,
                none, none⟩ : Session)).2).1 &&
        (match verifySchnorrProof (fun _ => [1]) [98] 4 (List.replicate 67 0) Gpt [] with
          | .error (.verificationError m) =>
            decide (m = "Invalid proof, V must be 33 bytes and r must be 32 bytes")
          | _ => false)
      | .error _ => false) = true := by decide

theorem resultNotInvalidState_map {α β : Type} {r : Except JPakeErr α} {f : α → β}
    (h : resultNotInvalidState r) : resultNotInvalidState (r.map f) := by
  cases r with
  | ok a => trivial
  | error e => cases e <;> simp_all [resultNotInvalidState, Except.map]

theorem applyOp_wrong_state {hash : List ℕ → List ℕ} {op : PubOp} {sess : Session}
    (h : sess.state ≠ opSource op) :
    ∃ m, applyOp hash op sess = (.error (.invalidState m), sess) := by
  cases op with
  | opRound1 a b c d =>
    refine ⟨"Round 1 can only be executed in INITIAL state", ?_⟩
    unfold applyOp
    simp only []
    rw [round1_wrong_state h]
    rfl
  | opRound2 v r1b s bobId =>
    refine ⟨"Round 2 can only be executed after Round 1", ?_⟩
    unfold applyOp
    simp only []
    rw [round2_wrong_state h]
    rfl
  | opSetRound2 r2b =>
    refine ⟨"Round 2 results can only be set after Round 2 is finished", ?_⟩
    unfold applyOp
    simp only []
    rw [setRound2_wrong_state h]
  | opDerive =>
    refine ⟨"Shared key can only be derived after receiving Round 2 results", ?_⟩
    unfold applyOp
    simp only []
    rw [deriveSharedKey_wrong_state h]
    rfl

theorem applyOp_right_state {hash : List ℕ → List ℕ} {op : PubOp} {sess : Session}
    (h : sess.state = opSource op) :
    resultNotInvalidState (applyOp hash op sess).1 := by
  cases op with
  | opRound1 a b c d => exact resultNotInvalidState_map (round1_right_state_ok h)
  | opRound2 v r1b s bobId => exact resultNotInvalidState_map (round2_right_state_ok h)
  | opSetRound2 r2b => exact setRound2_right_state_ok h
  | opDerive => exact resultNotInvalidState_map (deriveSharedKey_right_state_ok h)

/-- C3.  The session state machine: every public operation invoked outside
its unique source state fails with an `InvalidState` error and returns the
session wholly unchanged; invoked in its source state it never raises
`InvalidState`; and under any sequence of public operations the state field
never moves backwards in protocol order. -/
theorem jpake_state_machine (hash : List ℕ → List ℕ) :
    (∀ op sess, sess.state ≠ opSource op →
        ∃ m, applyOp hash op sess = (.error (.invalidState m), sess)) ∧
    (∀ op sess, sess.state = opSource op →
        ∀ m, (applyOp hash op sess).1 ≠ .error (.invalidState m)) ∧
    (∀ ops sess, stateIdx sess.state ≤ stateIdx (runOps hash ops sess).state) :=
  ⟨fun _ _ h => applyOp_wrong_state h,
   fun _ _ h m => (resultNotInvalidState_iff _).mp (applyOp_right_state h) m,
   fun ops sess => runOps_state_mono hash ops sess⟩

/-- Witness for C3: `deriveSharedKey` invoked on a fresh `INITIAL` session is
out of state, so it fails with `InvalidState` and leaves the session as is. -/
theorem jpake_state_machine_witness :
    (⟨[97], [], .INITIAL, none, none, none, none, none, none, none, none, none,
        none⟩ : Session).state ≠ opSource .opDerive ∧
    ∃ m, applyOp (fun _ => [1]) .opDerive
        (⟨[97], [], .INITIAL, none, none, none, none, none, none, none, none, none,
          none⟩ : Session)
      = (.error (.invalidState m),
         (⟨[97], [], .INITIAL, none, none, none, none, none, none, none, none, none,
           none⟩ : Session)) :=
  ⟨by decide,
   (jpake_state_machine (fun _ => [1])).1 .opDerive
     (⟨[97], [], .INITIAL, none, none, none, none, none, none, none, none, none,
       none⟩ : Session) (by decide)⟩

/-- C4 (amended).  Errors are not fatal to a session: a public operation
that fails never advances the state field, so the same operation (with
corrected arguments) is still permitted afterwards.  The source has no
poisoning mechanism; only a successful call moves the state forward. -/
theorem jpake_errors_preserve_state (hash : List ℕ → List ℕ) :
    ∀ op sess e, (applyOp hash op sess).1 = .error e →
      (applyOp hash op sess).2.state = sess.state := by
  intro op sess e he
  cases op with
  | opRound1 a b c d => exact round1_err_state (except_map_err he)
  | opRound2 v r1b s bobId => exact round2_err_state (except_map_err he)
  | opSetRound2 r2b => exact setRound2_err_state he
  | opDerive => exact deriveSharedKey_err_state (except_map_err he)

/-- Witness for C4 (amended): a failing `round2` call — peer `G1` bytes that
do not decode — leaves a `ROUND1FINISHED` session in `ROUND1FINISHED`. -/
theorem jpake_errors_preserve_state_witness :
    (applyOp (fun _ => [1])
        (.opRound2 9 (⟨[0], [0], [0], [0]⟩ : Round1Result) [1] [98])
        (round1 (fun _ => [1]) 1 2 3 4
          (⟨[97], [], .INITIAL, none, none, none, none, none, none, none, none, none,
            none⟩ : Session)).2).1
      = .error (.invalidArgument "Invalid points received: G1 or G2 is not a valid ProjectivePoint") ∧
    (applyOp (fun _ => [1])
        (.opRound2 9 (⟨[0], [0], [0], [0]⟩ : Round1Result) [1] [98])
        (round1 (fun _ => [1]) 1 2 3 4
          (⟨[97], [], .INITIAL, none, none, none, none, none, none, none, none, none,
            none⟩ : Session)).2).2.state
      = (round1 (fun _ => [1]) 1 2 3 4
          (⟨[97], [], .INITIAL, none, none, none, none, none, none, none, none, none,
            none⟩ : Session)).2.state :=
  ⟨by decide,
   jpake_errors_preserve_state (fun _ => [1])
     (.opRound2 9 (⟨[0], [0], [0], [0]⟩ : Round1Result) [1] [98])
     (round1 (fun _ => [1]) 1 2 3 4
       (⟨[97], [], .INITIAL, none, none, none, none, none, none, none, none, none,
         none⟩ : Session)).2
     (.invalidArgument "Invalid points received: G1 or G2 is not a valid ProjectivePoint") (by decide)⟩

/-- C4 counterexample: errors are not fatal.  After a `round2` call on a
`ROUND1FINISHED` session fails (peer `G1` bytes that do not decode), a
second `round2` call on the very same session succeeds — contradicting the
claim that every operation after a failure must also fail. -/
theorem jpake_C4_counterexample :
    (match (round1 (fun _ => [1]) 3 4 5 6
        (⟨[98], [], .INITIAL, none, none, none, none, none, none, none, none, none,
          none⟩ : Session)).1 with
      | .ok r1B =>
        !(exceptIsOk (round2 (fun _ => [1]) 9
            (⟨[0], [0], [0], [0]⟩ : Round1Result) [1] [98]
            (round1 (fun _ => [1]) 1 2 7 8
              (⟨[97], [], .INITIAL, none, none, none, none, none, none, none, none,
                none, none⟩ : Session)).2).1) &&
        exceptIsOk (round2 (fun _ => [1]) 9 r1B [1] [98]
            (round2 (fun _ => [1]) 9 (⟨[0], [0], [0], [0]⟩ : Round1Result) [1] [98]
              (round1 (fun _ => [1]) 1 2 7 8
                (⟨[97], [], .INITIAL, none, none, none, none, none, none, none, none,
                  none, none⟩ : Session)).2).2).1
      | .error _ => false) = true := by decide

/-- C9.  If `round2` is called in state `ROUND1FINISHED` and fails with a
`VerificationError` (equal userIds or invalid ZKP), the session state is
still `ROUND1FINISHED` afterwards — `round2` may be invoked again — while
`bobUserId` has already been overwritten with the caller-supplied
`peerUserId`, which happens before the verification runs. -/
theorem jpake_round2_partial_mutation {hash : List ℕ → List ℕ} {v : ℕ}
    {r1b : Round1Result} {s bobId : List ℕ} {sess : Session} {m : String}
    (hst : sess.state = .ROUND1FINISHED)
    (he : (round2 hash v r1b s bobId sess).1 = .error (.verificationError m)) :
    (round2 hash v r1b s bobId sess).2.state = .ROUND1FINISHED ∧
    (round2 hash v r1b s bobId sess).2.bobUserId = some bobId :=
  ⟨(round2_verificationError_post he).2.trans hst,
   (round2_verificationError_post he).1⟩

/-- Witness for C9: Alice (userId `[97]`, after `round1`) calls `round2` with
her own userId as peer; verification fails with equal userIds, the state
stays `ROUND1FINISHED`, and `bobUserId` holds the rejected peer id. -/
theorem jpake_round2_partial_mutation_witness :
    (round1 (fun _ => [1]) 1 2 3 4
        (⟨[97], [], .INITIAL, none, none, none, none, none, none, none, none, none,
          none⟩ : Session)).2.state = .ROUND1FINISHED ∧
    (round2 (fun _ => [1]) 9
        (⟨pointToBytes 3, pointToBytes 4, [0], [0]⟩ : Round1Result) [1] [97]
        (round1 (fun _ => [1]) 1 2 3 4
          (⟨[97], [], .INITIAL, none, none, none, none, none, none, none, none, none,
            none⟩ : Session)).2).1
      = .error (.verificationError "Proof verification failed, userIds are equal.") ∧
    ((round2 (fun _ => [1]) 9
        (⟨pointToBytes 3, pointToBytes 4, [0], [0]⟩ : Round1Result) [1] [97]
        (round1 (fun _ => [1]) 1 2 3 4
          (⟨[97], [], .INITIAL, none, none, none, none, none, none, none, none, none,
            none⟩ : Session)).2).2.state = .ROUND1FINISHED ∧
     (round2 (fun _ => [1]) 9
        (⟨pointToBytes 3, pointToBytes 4, [0], [0]⟩ : Round1Result) [1] [97]
        (round1 (fun _ => [1]) 1 2 3 4
          (⟨[97], [], .INITIAL, none, none, none, none, none, none, none, none, none,
            none⟩ : Session)).2).2.bobUserId = some [97]) :=
  ⟨by decide, by decide,
   @jpake_round2_partial_mutation (fun _ => [1]) 9
     (⟨pointToBytes 3, pointToBytes 4, [0], [0]⟩ : Round1Result) [1] [97]
     (round1 (fun _ => [1]) 1 2 3 4
       (⟨[97], [], .INITIAL, none, none, none, none, none, none, none, none, none,
         none⟩ : Session)).2
     "Proof verification failed, userIds are equal." (by decide) (by decide)⟩

theorem mkJPake_goodB {userId : List ℕ} {otherInfo : List (List ℕ)} {sess0 : Session}
    (h : mkJPake userId otherInfo = .ok sess0) : goodB sess0 := by
  unfold mkJPake at h
  split at h
  · cases h
  · cases h
    intro b hb
    cases hb

/-- C10.  Compressed SEC1 bytes never decode to the point at infinity, so in
every session reachable from the constructor through the public interface a
stored `B` is a finite point, and the
`VerificationError("Invalid point: B is the point at infinity")` branch of
`deriveSharedKey` is unreachable. -/
theorem jpake_B_never_infinity (hash : List ℕ → List ℕ) :
    (∀ bs, pointFromBytes bs ≠ some 0) ∧
    (∀ userId otherInfo sess0 ops b, mkJPake userId otherInfo = .ok sess0 →
        (runOps hash ops sess0).B = some b → b ≠ 0) ∧
    (∀ userId otherInfo sess0 ops, mkJPake userId otherInfo = .ok sess0 →
        (deriveSharedKey hash (runOps hash ops sess0)).1
          ≠ .error (.verificationError "Invalid point: B is the point at infinity")) := by
  refine ⟨?_, ?_, ?_⟩
  · intro bs h
    have h0 := (pointFromBytes_some h).1
    omega
  · intro userId otherInfo sess0 ops b hmk hB
    have hg : goodB (runOps hash ops sess0) := runOps_goodB (mkJPake_goodB hmk)
    have h0 := (hg b hB).1
    omega
  · intro userId otherInfo sess0 ops hmk
    exact deriveSharedKey_no_infinity_err (runOps_goodB (mkJPake_goodB hmk))

/-- Witness for C10: a fresh session for userId `[97]`, after a successful
`round1`, never hits the point-at-infinity branch of `deriveSharedKey`
(here it fails with `InvalidState` instead). -/
theorem jpake_B_never_infinity_witness :
    mkJPake [97] []
      = .ok (⟨[97], [], .INITIAL, none, none, none, none, none, none, none, none,
          none, none⟩ : Session) ∧
    (deriveSharedKey (fun _ => [1])
        (runOps (fun _ => [1]) [.opRound1 1 2 3 4]
          (⟨[97], [], .INITIAL, none, none, none, none, none, none, none, none,
            none, none⟩ : Session))).1
      ≠ .error (.verificationError "Invalid point: B is the point at infinity") :=
  ⟨by decide,
   (jpake_B_never_infinity (fun _ => [1])).2.2 [97] []
     (⟨[97], [], .INITIAL, none, none, none, none, none, none, none, none, none,
       none⟩ : Session) [.opRound1 1 2 3 4] (by decide)⟩

/-- C5.  Schnorr proof generation is complete: for `x, v` in `[1, n)`, a
generator `g` that is not the point at infinity, and `gx = g·x`, with
`userId` and each `otherInfo` entry at most 255 bytes, `generateSchnorrProof`
returns the 67-byte proof `[33][V][32][r]` with `V = g·v` and
`r = (v − x·c) mod n`, its self-verification returns `true`, and the failure
branch for an invalid freshly generated proof is not taken. -/
theorem jpake_schnorr_generation_complete (hash : List ℕ → List ℕ) (u : List ℕ)
    (oi : List (List ℕ)) (g gx xv v : ℕ)
    (hu : u.length ≤ 255) (hoi : ∀ i ∈ oi, i.length ≤ 255)
    (hx0 : 0 < xv) (hxn : xv < n)
    (hg0 : 0 < g) (hgn : g < n)
    (hv0 : 0 < v) (hvn : v < n)
    (hgx : gx = pmul g xv) :
    generateSchnorrProof hash v u (numberToBytesBE xv 32) gx g oi
      = .ok (schnorrProofBytes (pmul g v)
          (schnorrR v xv (challengeVal hash u gx (pmul g v) oi))) ∧
    schnorrProofBytes (pmul g v) (schnorrR v xv (challengeVal hash u gx (pmul g v) oi))
      = 33 :: (pointToBytes (pmul g v)
          ++ 32 :: numberToBytesBE
              (schnorrR v xv (challengeVal hash u gx (pmul g v) oi)) 32) ∧
    ((schnorrR v xv (challengeVal hash u gx (pmul g v) oi) : ℕ) : ℤ)
      = ((v : ℤ) - (xv : ℤ) * ((challengeVal hash u gx (pmul g v) oi : ℕ) : ℤ)) % (n : ℤ) ∧
    (schnorrProofBytes (pmul g v)
        (schnorrR v xv (challengeVal hash u gx (pmul g v) oi))).length = 67 ∧
    verifySchnorrProof hash u gx
        (schnorrProofBytes (pmul g v)
          (schnorrR v xv (challengeVal hash u gx (pmul g v) oi))) g oi
      = .ok true := by
  have hbe : bytesToNumberBE (numberToBytesBE xv 32) = xv := bytesToNumberBE_roundtrip32 hxn
  have hg0' : (g : ZMod n) ≠ 0 := natCast_ne_zero_of_lt hg0 hgn
  have hv0' : (v : ZMod n) ≠ 0 := natCast_ne_zero_of_lt hv0 hvn
  have hrel : (gx : ZMod n)
      = (g : ZMod n) * (bytesToNumberBE (numberToBytesBE xv 32) : ZMod n) := by
    rw [hbe, hgx]
    exact natCast_pmul g xv
  have hgx0 : gx ≠ 0 := by
    apply Nat.pos_iff_ne_zero.mp
    apply pos_of_natCast_ne_zero
    rw [hgx, natCast_pmul]
    exact mul_ne_zero hg0' (natCast_ne_zero_of_lt hx0 hxn)
  have hmain := generateSchnorrProof_ok hash u (numberToBytesBE xv 32) oi g gx v
    hu hoi hg0' hv0' hrel hgx0
  have hver := verifySchnorrProof_generated hash u (numberToBytesBE xv 32) oi g gx v
    hu hoi hg0' hv0' hrel hgx0
  rw [hbe] at hmain hver
  refine ⟨hmain, rfl, ?_, schnorrProofBytes_length _ _, hver⟩
  unfold schnorrR
  exact Int.toNat_of_nonneg (Int.emod_nonneg _ (by exact_mod_cast n_pos.ne'))

/-- Witness for C5: concrete parameters `x = 3`, `v = 5`, `g = 2`,
`gx = 2·3`, userId `[97]`, empty `otherInfo`, trivial hash. -/
theorem jpake_schnorr_generation_complete_witness :
    ((([97] : List ℕ).length ≤ 255) ∧ (0:ℕ) < 3 ∧ (3:ℕ) < n ∧ (0:ℕ) < 2 ∧ (2:ℕ) < n ∧
      (0:ℕ) < 5 ∧ (5:ℕ) < n ∧ pmul 2 3 = 6) ∧
    (generateSchnorrProof (fun _ => [1]) 5 [97] (numberToBytesBE 3 32) 6 2 []
        = .ok (schnorrProofBytes (pmul 2 5)
            (schnorrR 5 3 (challengeVal (fun _ => [1]) [97] 6 (pmul 2 5) []))) ∧
      schnorrProofBytes (pmul 2 5)
          (schnorrR 5 3 (challengeVal (fun _ => [1]) [97] 6 (pmul 2 5) []))
        = 33 :: (pointToBytes (pmul 2 5)
            ++ 32 :: numberToBytesBE
                (schnorrR 5 3 (challengeVal (fun _ => [1]) [97] 6 (pmul 2 5) [])) 32) ∧
      ((schnorrR 5 3 (challengeVal (fun _ => [1]) [97] 6 (pmul 2 5) []) : ℕ) : ℤ)
        = ((5 : ℤ) - (3 : ℤ)
            * ((challengeVal (fun _ => [1]) [97] 6 (pmul 2 5) [] : ℕ) : ℤ)) % (n : ℤ) ∧
      (schnorrProofBytes (pmul 2 5)
          (schnorrR 5 3 (challengeVal (fun _ => [1]) [97] 6 (pmul 2 5) []))).length = 67 ∧
      verifySchnorrProof (fun _ => [1]) [97] 6
          (schnorrProofBytes (pmul 2 5)
            (schnorrR 5 3 (challengeVal (fun _ => [1]) [97] 6 (pmul 2 5) []))) 2 []
        = .ok true) :=
  ⟨⟨by decide, by decide, by decide, by decide, by decide, by decide, by decide,
    by decide⟩,
   jpake_schnorr_generation_complete (fun _ => [1]) [97] [] 2 6 3 5
     (by decide) (by simp) (by decide) (by decide) (by decide) (by decide)
     (by decide) (by decide) (by decide)⟩

/-- C6 (amended).  `verifySchnorrProof` behavior by cases: wrong total
length raises the 67-byte `VerificationError`; bad inner length prefixes
raise the `V`/`r` `VerificationError`; undecodable `V` bytes return `false`
without raising; and with a decodable `V` — provided `peerUserId` and each
`otherInfo` entry are at most 255 bytes (else the challenge recomputation
raises `InvalidArgument`), `gx` is a finite point, and the wire bytes 35..67
encode a scalar `r` in `[1, n)` (else the source's `g.multiply(r)` throws
the noble scalar-range `Error`, a case this embedding's total `pmul` cannot
express) — it returns `true` iff `V = g·r + gx·c`, `c` the recomputed
challenge. -/
theorem jpake_verifySchnorrProof_behavior (hash : List ℕ → List ℕ) (u : List ℕ)
    (gx : ℕ) (proof : List ℕ) (g : ℕ) (oi : List (List ℕ)) :
    (proof.length ≠ 67 →
      verifySchnorrProof hash u gx proof g oi
        = .error (.verificationError "Invalid proof, must be 33 + 32 + 2 bytes long")) ∧
    (proof.length = 67 → proof.getD 0 0 ≠ 33 ∨ proof.getD 34 0 ≠ 32 →
      verifySchnorrProof hash u gx proof g oi
        = .error (.verificationError "Invalid proof, V must be 33 bytes and r must be 32 bytes")) ∧
    (proof.length = 67 → proof.getD 0 0 = 33 → proof.getD 34 0 = 32 →
      pointFromBytes ((proof.drop 1).take 33) = none →
      verifySchnorrProof hash u gx proof g oi = .ok false) ∧
    (∀ V, proof.length = 67 → proof.getD 0 0 = 33 → proof.getD 34 0 = 32 →
      pointFromBytes ((proof.drop 1).take 33) = some V →
      u.length ≤ 255 → (∀ i ∈ oi, i.length ≤ 255) →
      gx ≠ 0 →
      0 < bytesToNumberBE ((proof.drop 35).take 32) →
      bytesToNumberBE ((proof.drop 35).take 32) < n →
      verifySchnorrProof hash u gx proof g oi
        = .ok (decide (V = padd
            (pmul g (bytesToNumberBE ((proof.drop 35).take 32)))
            (pmul gx (challengeVal hash u gx V oi))))) := by
  refine ⟨?_, ?_, ?_, ?_⟩
  · intro h
    unfold verifySchnorrProof
    rw [if_pos (by omega)]
  · intro hlen hbad
    unfold verifySchnorrProof
    rw [if_neg (by omega)]
    rw [if_pos ?_]
    rcases hbad with h33 | h34
    · exact Or.inl h33
    · by_cases hc : proof.getD 0 0 = 33
      · right
        rw [hc, show (1:ℕ) + 33 = 34 from rfl]
        exact h34
      · exact Or.inl hc
  · intro hlen h33 h34 hdec
    unfold verifySchnorrProof
    rw [if_neg (by omega), h33, show (1:ℕ) + 33 = 34 from rfl, h34,
      if_neg (by norm_num), hdec]
  · intro V hlen h33 h34 hdec hu hoi hgx0 hr0 hrn
    unfold verifySchnorrProof
    rw [if_neg (by omega), h33, show (1:ℕ) + 33 = 34 from rfl, h34,
      if_neg (by norm_num), hdec]
    simp only []
    rw [generateSchnorrChallenge_ok hash u gx V oi hu hoi hgx0
        (Nat.pos_iff_ne_zero.mp (pointFromBytes_some hdec).1),
      show (34:ℕ) + 1 = 35 from rfl]

/-- Witness for C6: the empty byte string is not 67 bytes long, and
verification of it raises the corresponding `VerificationError`. -/
theorem jpake_verifySchnorrProof_behavior_witness :
    (([] : List ℕ).length ≠ 67) ∧
    verifySchnorrProof (fun _ => [1]) [97] 1 [] 1 []
      = .error (.verificationError "Invalid proof, must be 33 + 32 + 2 bytes long") :=
  ⟨by decide,
   (jpake_verifySchnorrProof_behavior (fun _ => [1]) [97] 1 [] 1 []).1 (by decide)⟩

/-- C6 counterexample: a well-formed 67-byte proof whose `V` decodes, checked
for a 256-byte `peerUserId`, makes `verifySchnorrProof` raise
`InvalidArgument` from the challenge recomputation — a fourth outcome the
claim's case analysis does not admit (it would require returning a boolean
here). -/
theorem jpake_C6_counterexample :
    (schnorrProofBytes 1 0).length = 67 ∧
    pointFromBytes (((schnorrProofBytes 1 0).drop 1).take 33) = some 1 ∧
    verifySchnorrProof (fun _ => [1]) (List.replicate 256 97) 1
        (schnorrProofBytes 1 0) 1 []
      = .error (.invalidArgument
          "userId is too long. It must be 255 bytes or less when UTF-8 encoded.") := by
  refine ⟨by decide, by decide, by decide⟩

/-- C7.  `deriveSFromPassword` raises `InvalidArgument("Missing password")`
exactly on the empty password; it is a pure function of its inputs (so
deterministic); and whenever it returns a value, that value is exactly 32
bytes and its big-endian integer lies in `[1, n)`.  (A return value is the
`some` case; `none` models the source's `while` loop never terminating,
which a real hash does not trigger.) -/
theorem jpake_deriveSFromPassword_spec (hash : List ℕ → List ℕ) (password : List ℕ) :
    (password = [] → deriveSFromPassword hash password
        = .error (.invalidArgument "Missing password")) ∧
    (∀ p2, p2 = password →
        deriveSFromPassword hash p2 = deriveSFromPassword hash password) ∧
    (∀ out, deriveSFromPassword hash password = .ok (some out) →
        out.length = 32 ∧ 0 < bytesToNumberBE out ∧ bytesToNumberBE out < n) := by
  refine ⟨?_, ?_, ?_⟩
  · intro h
    unfold deriveSFromPassword
    rw [if_pos h]
  · intro p2 h
    rw [h]
  · intro out hout
    unfold deriveSFromPassword at hout
    by_cases h0 : password = []
    · rw [if_pos h0] at hout
      cases hout
    rw [if_neg h0] at hout
    by_cases h1 : bytesToNumberBE (hash password) % n = 0
    · rw [if_neg (by simp [h1])] at hout
      by_cases h2 : bytesToNumberBE (hash (password ++ retriedSuffix)) % n = 0
      · rw [if_neg (by simp [h2])] at hout
        cases hout
      · rw [if_pos h2] at hout
        injection hout with h3
        injection h3 with h4
        have hlt : bytesToNumberBE (hash (password ++ retriedSuffix)) % n < n :=
          Nat.mod_lt _ n_pos
        have heq : (bytesToNumberBE (hash (password ++ retriedSuffix)) % n) % 256 ^ 32
            = bytesToNumberBE (hash (password ++ retriedSuffix)) % n :=
          Nat.mod_eq_of_lt (lt_trans hlt n_lt_byte32)
        subst h4
        refine ⟨numberToBytesBE_length _ _, ?_, ?_⟩
        · rw [bytesToNumberBE_numberToBytesBE, heq]
          exact Nat.pos_of_ne_zero h2
        · rw [bytesToNumberBE_numberToBytesBE, heq]
          exact hlt
    · rw [if_pos h1] at hout
      injection hout with h3
      injection h3 with h4
      have hlt : bytesToNumberBE (hash password) % n < n :=
        Nat.mod_lt _ n_pos
      have heq : (bytesToNumberBE (hash password) % n) % 256 ^ 32
          = bytesToNumberBE (hash password) % n :=
        Nat.mod_eq_of_lt (lt_trans hlt n_lt_byte32)
      subst h4
      refine ⟨numberToBytesBE_length _ _, ?_, ?_⟩
      · rw [bytesToNumberBE_numberToBytesBE, heq]
        exact Nat.pos_of_ne_zero h1
      · rw [bytesToNumberBE_numberToBytesBE, heq]
        exact hlt

/-- Witness for C7: with the constant hash `[1]` and password `[97]` the
derived value is returned, is 32 bytes, and encodes the integer 1. -/
theorem jpake_deriveSFromPassword_spec_witness :
    deriveSFromPassword (fun _ => [1]) [97] = .ok (some (numberToBytesBE 1 32)) ∧
    ((numberToBytesBE 1 32).length = 32 ∧
      0 < bytesToNumberBE (numberToBytesBE 1 32) ∧
      bytesToNumberBE (numberToBytesBE 1 32) < n) :=
  ⟨by decide,
   (jpake_deriveSFromPassword_spec (fun _ => [1]) [97]).2.2 (numberToBytesBE 1 32)
     (by decide)⟩

/-- Witness for C8 (amended): Alice after `round1` with `x1 = x2 = 1`, Bob's
points decoding to `1` and `n - 2` with a genuine `ZKPx1` for the secret 1,
so the combined generator is the point at infinity; `round2` fails with the
noble `Error("bad point: ZERO")` from the challenge computation. -/
theorem jpake_round2_infinity_generator_witness :
    (round2 (fun _ => [1]) 7
        (⟨pointToBytes 1, pointToBytes (n - 2),
          schnorrProofBytes (pmul Gpt 5)
            (schnorrR 5 1
              (challengeVal (fun _ => [1]) [98] (pmul Gpt 1) (pmul Gpt 5) [])),
          [0]⟩ : Round1Result) [1] [98]
        (round1 (fun _ => [1]) 1 1 1 1
          (⟨[97], [], .INITIAL, none, none, none, none, none, none, none, none,
            none, none⟩ : Session)).2).1
      = .error (.jsError "bad point: ZERO") :=
  @jpake_round2_infinity_generator (fun _ => [1]) 7
    (⟨pointToBytes 1, pointToBytes (n - 2),
      schnorrProofBytes (pmul Gpt 5)
        (schnorrR 5 1
          (challengeVal (fun _ => [1]) [98] (pmul Gpt 1) (pmul Gpt 5) [])),
      [0]⟩ : Round1Result) [1] [98]
    (round1 (fun _ => [1]) 1 1 1 1
      (⟨[97], [], .INITIAL, none, none, none, none, none, none, none, none,
        none, none⟩ : Session)).2
    1 1 1 (n - 2)
    (by decide) (by decide) (by decide) (by decide) (by decide) (by decide)
    (by decide) (by decide) (by decide) (by decide)

end JPakeSpec
